import Mathlib

/-!
# BMP codec of cpp-image-converter

A shallow embedding of `src/ImgLib/bmp_image.cpp` (`GetBMPStride`, `SaveBMP`,
`LoadBMP`) together with the two packed header structures, and of
`src/ImgConverter/main.cpp` (`GetFormatByExtension`, `GetFormatInterface`,
`main`), followed by the properties of the codec and of the converter.

Conventions of the embedding.

* `int` is a 32-bit two's-complement integer.  Values are `Int`; every
  arithmetic result is passed through `wrapInt32`, so a signed overflow
  (undefined behaviour in C++) shows up as the wrapped value the usual
  targets compute.  `uint32_t` results go through `wrapUInt32`.
* An object is written to and read from a stream through its object
  representation; the host is little-endian and the structures are packed,
  so the representation of a header is the concatenation of its fields.
* A local object that is default-initialised keeps, in every field without a
  default member initialiser, the bytes its storage held before.  Those
  bytes are a parameter (`stack`, a byte for every offset of the object).
* `std::ofstream` and `std::ifstream` are byte sinks and sources with a
  failure flag; a failed stream ignores every later operation.
* An exception that leaves `SaveBMP` or `LoadBMP` is the `Except.error`
  result.
-/

namespace img_lib

/-! ## Machine integers and bytes -/

/-- One octet (`uint8_t`, `char`, `std::byte`: conversions between them keep
the bit pattern). -/
abbrev Byte := Fin 256

/-- Low octet of a natural number. -/
def Byte.ofNat (n : Nat) : Byte := ⟨n % 256, Nat.mod_lt n (by decide)⟩

/-- Value of a 32-bit two's-complement `int` after an arithmetic result `z`. -/
def wrapInt32 (z : Int) : Int := (z + 2147483648) % 4294967296 - 2147483648

/-- Value of a `uint32_t` after an arithmetic result or a conversion `z`. -/
def wrapUInt32 (z : Int) : Nat := (z % 4294967296).toNat

/-- Little-endian object representation, `k` octets, of an unsigned value. -/
def leBytes (n : Nat) : Nat → List Byte
  | 0 => []
  | k + 1 => Byte.ofNat n :: leBytes (n / 256) k

/-- Unsigned value of a little-endian octet sequence. -/
def leNat : List Byte → Nat
  | [] => 0
  | b :: bs => b.val + 256 * leNat bs

/-- Object representation of an `int32_t`. -/
def int32Bytes (z : Int) : List Byte := leBytes (wrapUInt32 z) 4

/-- Reading an `int32_t` back from its four octets. -/
def int32OfBytes (bs : List Byte) : Int := wrapInt32 (leNat bs)

/-- Exceptions of the standard library that can leave the codec. -/
inductive CppException where
  | length_error
deriving DecidableEq, Repr

/-- Construction `std::vector<char> buffer(n)` from an `int`: the count is
converted to `size_t`, so a negative `n` asks for more than `max_size()`
elements and the constructor throws; otherwise `n` value-initialised (zero)
elements. -/
def vectorChar (n : Int) : Except CppException (List Byte) :=
  if n < 0 then Except.error CppException.length_error
  else Except.ok (List.replicate n.toNat 0)

/-! ## Pixel buffer (`img_lib.h`, not part of the sources at hand) -/

/-- Modelled from the spec: the `Color` type of `img_lib.h` is missing; a
pixel is three 8-bit unsigned channels r, g, b with no alpha. -/
structure Color where
  r : Byte
  g : Byte
  b : Byte
deriving DecidableEq, Repr

/-- Modelled from the spec: `Color::Black()` of `img_lib.h` is missing; the
fill colour black is (0,0,0). -/
def Color.Black : Color := ⟨0, 0, 0⟩

/-- Modelled from the spec: the `Image` class of `img_lib.h` is missing; a
pixel buffer has a width, a height and a row-major sequence of `height` rows
of `width` pixels each, addressed by row index from the top. -/
structure Image where
  width : Int
  height : Int
  rows : List (List Color)
deriving DecidableEq, Repr

namespace Image

/-- Modelled from the spec: the default constructor `Image()` (the value of
`return {}`) is missing; it is the buffer without pixels. -/
def empty : Image := ⟨0, 0, []⟩

/-- Modelled from the spec: the constructor `Image(w, h, fill)` is missing;
it makes `h` rows of `w` pixels of the fill colour. The spec describes the
constructor for `w` and `h` at least 1 only and calls a buffer with a dimension
that is not positive undefined: the value given here for such dimensions (no
rows or no pixels) is a placeholder, and the definition follows the class for
`1 ≤ w` and `1 ≤ h` only. -/
def create (w h : Int) (fill : Color) : Image :=
  ⟨w, h, List.replicate h.toNat (List.replicate w.toNat fill)⟩

/-- Modelled from the spec: `GetWidth` is missing; it queries the width. -/
def GetWidth (img : Image) : Int := img.width

/-- Modelled from the spec: `GetHeight` is missing; it queries the height. -/
def GetHeight (img : Image) : Int := img.height

/-- Modelled from the spec: the row accessor `GetLine(y)` is missing; it
gives the pixels of row `y`. -/
def GetLine (img : Image) (y : Nat) : List Color := img.rows.getD y []

/-- Modelled from the spec: the mutable row accessor is missing; storing
through the pointer `GetLine(y)` replaces the pixels of row `y`. -/
def SetLine (img : Image) (y : Nat) (line : List Color) : Image :=
  { img with rows := img.rows.set y line }

/-- Modelled from the spec: the validity query (`operator bool`) is missing;
a buffer is valid when both dimensions are at least 1. -/
def valid (img : Image) : Bool := decide (1 ≤ img.width ∧ 1 ≤ img.height)

/-- Class invariant of a pixel buffer: `height` rows of `width` pixels. -/
def WellFormed (img : Image) : Prop :=
  img.rows.length = img.height.toNat ∧ ∀ row ∈ img.rows, row.length = img.width.toNat

/-- Pixel in row `y`, column `x` (`GetLine(y)[x]`). -/
def pixel (img : Image) (y x : Nat) : Color := (img.GetLine y).getD x Color.Black

end Image

/-! ## Header structures -/

/-- Bytes left in the storage of a default-initialised local object, by
offset inside the object. -/
abbrev Stack := Nat → Byte

/-- Packed structure `BitmapFileHeader`, 14 octets. -/
structure BitmapFileHeader where
  signature : List Byte
  header_summary : Nat
  reserved : List Byte
  padding : Nat

/-- Packed structure `BitmapInfoHeader`, 40 octets. -/
structure BitmapInfoHeader where
  header_size : Nat
  image_width : Int
  image_height : Int
  plane_count : Nat
  bits_per_pixel : Nat
  compression_type : Nat
  bytes_in_data : Nat
  horizontal_resolution : Int
  vertical_resolution : Int
  used_colors_count : Int
  significant_colors_count : Int

/-- Modelled from the spec: `pack_defines.h` is missing; the structures are
packed, so `sizeof(BitmapFileHeader)` is 14. -/
def sizeofBitmapFileHeader : Nat := 14

/-- Modelled from the spec: `pack_defines.h` is missing; the structures are
packed, so `sizeof(BitmapInfoHeader)` is 40. -/
def sizeofBitmapInfoHeader : Nat := 40

/-- Default-initialised `BitmapFileHeader`: only `signature` has a default
member initialiser (the characters B and M); the other fields keep what the
storage held. -/
def BitmapFileHeader.init (stack : Stack) : BitmapFileHeader :=
  { signature := [66, 77]
    header_summary := leNat [stack 2, stack 3, stack 4, stack 5]
    reserved := [stack 6, stack 7, stack 8, stack 9]
    padding := leNat [stack 10, stack 11, stack 12, stack 13] }

/-- Object representation of a `BitmapFileHeader`. -/
def BitmapFileHeader.bytes (h : BitmapFileHeader) : List Byte :=
  h.signature ++ leBytes h.header_summary 4 ++ h.reserved ++ leBytes h.padding 4

/-- The `BitmapFileHeader` whose object representation is `mem`. -/
def BitmapFileHeader.ofBytes (mem : List Byte) : BitmapFileHeader :=
  { signature := mem.take 2
    header_summary := leNat ((mem.drop 2).take 4)
    reserved := (mem.drop 6).take 4
    padding := leNat ((mem.drop 10).take 4) }

/-- Default-initialised `BitmapInfoHeader`: `image_width`, `image_height`
and `bytes_in_data` have no default member initialiser. -/
def BitmapInfoHeader.init (stack : Stack) : BitmapInfoHeader :=
  { header_size := sizeofBitmapInfoHeader
    image_width := int32OfBytes [stack 4, stack 5, stack 6, stack 7]
    image_height := int32OfBytes [stack 8, stack 9, stack 10, stack 11]
    plane_count := 1
    bits_per_pixel := 24
    compression_type := 0
    bytes_in_data := leNat [stack 20, stack 21, stack 22, stack 23]
    horizontal_resolution := 11811
    vertical_resolution := 11811
    used_colors_count := 0
    significant_colors_count := 0x1000000 }

/-- Object representation of a `BitmapInfoHeader`. -/
def BitmapInfoHeader.bytes (h : BitmapInfoHeader) : List Byte :=
  leBytes h.header_size 4 ++ int32Bytes h.image_width ++ int32Bytes h.image_height
    ++ leBytes h.plane_count 2 ++ leBytes h.bits_per_pixel 2
    ++ leBytes h.compression_type 4 ++ leBytes h.bytes_in_data 4
    ++ int32Bytes h.horizontal_resolution ++ int32Bytes h.vertical_resolution
    ++ int32Bytes h.used_colors_count ++ int32Bytes h.significant_colors_count

/-- The `BitmapInfoHeader` whose object representation is `mem`. -/
def BitmapInfoHeader.ofBytes (mem : List Byte) : BitmapInfoHeader :=
  { header_size := leNat (mem.take 4)
    image_width := int32OfBytes ((mem.drop 4).take 4)
    image_height := int32OfBytes ((mem.drop 8).take 4)
    plane_count := leNat ((mem.drop 12).take 2)
    bits_per_pixel := leNat ((mem.drop 14).take 2)
    compression_type := leNat ((mem.drop 16).take 4)
    bytes_in_data := leNat ((mem.drop 20).take 4)
    horizontal_resolution := int32OfBytes ((mem.drop 24).take 4)
    vertical_resolution := int32OfBytes ((mem.drop 28).take 4)
    used_colors_count := int32OfBytes ((mem.drop 32).take 4)
    significant_colors_count := int32OfBytes ((mem.drop 36).take 4) }

/-! ## Streams -/

/-- Output file stream: the failure flag, the bytes that reached the file,
and the number of bytes the device still accepts. -/
structure OFStream where
  fail : Bool
  written : List Byte
  room : Nat
deriving DecidableEq, Repr

/-- Destination path as the file system presents it: `none` when the file
cannot be opened for writing, `some room` when it can and the device accepts
`room` bytes. -/
abbrev OutPath := Option Nat

/-- Construction `ofstream ofs(file, ios::binary)`. -/
def OFStream.open : OutPath → OFStream
  | none => ⟨true, [], 0⟩
  | some room => ⟨false, [], room⟩

/-- Call `ofs.write(data, n)` with `bs` the `n` bytes at `data`: nothing on a
failed stream; all of `bs` when the device has room; otherwise the part that
fits, and the stream fails. -/
def OFStream.write (ofs : OFStream) (bs : List Byte) : OFStream :=
  if ofs.fail then ofs
  else if bs.length ≤ ofs.room then
    { ofs with written := ofs.written ++ bs, room := ofs.room - bs.length }
  else
    { fail := true, written := ofs.written ++ bs.take ofs.room, room := 0 }

/-- Input file stream: the failure flag, the content of the file and the
read position. -/
structure IFStream where
  fail : Bool
  data : List Byte
  pos : Nat
deriving DecidableEq, Repr

/-- Source path as the file system presents it: `none` when the file cannot
be opened for reading, `some content` when it can. -/
abbrev InPath := Option (List Byte)

/-- Construction `ifstream ifs(file, ios::binary)`. -/
def IFStream.open : InPath → IFStream
  | none => ⟨true, [], 0⟩
  | some content => ⟨false, content, 0⟩

/-- Call `ifs.read(p, n)` with `mem` the storage at `p`: nothing on a failed
stream; the next `n` bytes replace the first `n` bytes of the storage when
the file has them; otherwise the bytes that are left replace the start of
the storage, the rest of the storage is untouched and the stream fails. -/
def IFStream.read (ifs : IFStream) (mem : List Byte) (n : Nat) : List Byte × IFStream :=
  if ifs.fail then (mem, ifs)
  else
    let rest := ifs.data.drop ifs.pos
    if n ≤ rest.length then (rest.take n ++ mem.drop n, { ifs with pos := ifs.pos + n })
    else (rest ++ mem.drop rest.length, { ifs with fail := true, pos := ifs.pos + rest.length })

/-! ## The codec -/

/-- Function `GetBMPStride` (bmp_image.cpp:62): `4 * ((w * 3 + 3) / 4)` in
`int` arithmetic, the division truncating towards zero. -/
def GetBMPStride (w : Int) : Int :=
  wrapInt32 (4 * Int.tdiv (wrapInt32 (wrapInt32 (w * 3) + 3)) 4)

/-- Body of the inner loop of `SaveBMP` for column `x`: the three stores
`buffer[x * 3 + 0] = b`, `buffer[x * 3 + 1] = g`, `buffer[x * 3 + 2] = r`.
A store past the end of the buffer is undefined behaviour in the source and
leaves the buffer as it is here. The index `x * 3 + 2` with `x < w` is past the
end only when `w * 3 + 3` has overflowed `int` and the stride has wrapped to a
value from 0 up that is smaller than `3 * w`: the definition follows the source
for `3 * w + 3 ≤ 2147483647` only. -/
def saveColumn (line : List Color) (buffer : List Byte) (x : Nat) : List Byte :=
  let c := line.getD x Color.Black
  ((buffer.set (x * 3 + 0) c.b).set (x * 3 + 1) c.g).set (x * 3 + 2) c.r

/-- Inner loop of `SaveBMP`: `for (int x = 0; x < width; ++x)`. -/
def saveLine (width : Int) (line : List Color) (buffer : List Byte) : List Byte :=
  (List.range width.toNat).foldl (saveColumn line) buffer

/-- Outer loop of `SaveBMP`, `for (int y = height - 1; y >= 0; y--)`, with
`n` the number of rows still to write (the next row is `y = n - 1`); the row
buffer is kept from one row to the next. -/
def saveRows (image : Image) (width : Int) :
    Nat → List Byte → OFStream → List Byte × OFStream
  | 0, buffer, ofs => (buffer, ofs)
  | y + 1, buffer, ofs =>
    let line := image.GetLine y
    let buffer := saveLine width line buffer
    saveRows image width y buffer (ofs.write buffer)

/-- Function `SaveBMP` (bmp_image.cpp:66).  The result is the returned flag
and the stream as it is closed; `stackFile` and `stackInfo` are the storage
of the two header objects before they are constructed. -/
def SaveBMP (file : OutPath) (stackFile stackInfo : Stack) (image : Image) :
    Except CppException (Bool × OFStream) :=
  let ofs := OFStream.open file
  if ofs.fail then Except.ok (false, ofs)
  else
    let height := image.GetHeight
    let width := image.GetWidth
    if height ≤ 0 ∨ width ≤ 0 then Except.ok (false, ofs)
    else
      let bmp_stride := GetBMPStride width
      let bitmap_file_header := BitmapFileHeader.init stackFile
      let bitmap_file_header := { bitmap_file_header with
        padding := sizeofBitmapFileHeader + sizeofBitmapInfoHeader }
      let bitmap_file_header := { bitmap_file_header with
        header_summary :=
          wrapUInt32 (bitmap_file_header.padding + wrapInt32 (bmp_stride * height)) }
      let ofs := ofs.write bitmap_file_header.bytes
      let bitmap_info_header := BitmapInfoHeader.init stackInfo
      let bitmap_info_header := { bitmap_info_header with image_width := width }
      let bitmap_info_header := { bitmap_info_header with image_height := height }
      let bitmap_info_header := { bitmap_info_header with
        bytes_in_data := wrapUInt32 (wrapInt32 (bmp_stride * height)) }
      let ofs := ofs.write bitmap_info_header.bytes
      match vectorChar bmp_stride with
      | Except.error e => Except.error e
      | Except.ok buffer =>
        let (_, ofs) := saveRows image width height.toNat buffer ofs
        Except.ok (true, ofs)

/-- Body of the inner loop of `LoadBMP` for column `x`: the three stores
`line[x].b = buffer[x * 3 + 0]`, `line[x].g = buffer[x * 3 + 1]`,
`line[x].r = buffer[x * 3 + 2]`. A load past the end of the buffer is
undefined behaviour in the source and gives the byte 0 here. The index
`x * 3 + 2` with `x < w` is past the end only when `w * 3 + 3` has overflowed
`int` and the stride has wrapped to a value from 0 up that is smaller than
`3 * w`: the definition follows the source for `3 * w + 3 ≤ 2147483647`
only. -/
def loadColumn (buffer : List Byte) (line : List Color) (x : Nat) : List Color :=
  let line := line.set x { line.getD x Color.Black with b := buffer.getD (x * 3 + 0) 0 }
  let line := line.set x { line.getD x Color.Black with g := buffer.getD (x * 3 + 1) 0 }
  line.set x { line.getD x Color.Black with r := buffer.getD (x * 3 + 2) 0 }

/-- Inner loop of `LoadBMP`: `for (int x = 0; x < width; ++x)`. -/
def loadLine (width : Int) (buffer : List Byte) (line : List Color) : List Color :=
  (List.range width.toNat).foldl (loadColumn buffer) line

/-- Outer loop of `LoadBMP`, `for (int y = height - 1; y >= 0; y--)`, with
`n` the number of rows still to read (the next row is `y = n - 1`); the row
buffer is kept from one row to the next. -/
def loadRows (width : Int) (bmp_stride : Nat) :
    Nat → Image → List Byte → IFStream → Image × List Byte × IFStream
  | 0, result, buffer, ifs => (result, buffer, ifs)
  | y + 1, result, buffer, ifs =>
    let line := result.GetLine y
    let (buffer, ifs) := ifs.read buffer bmp_stride
    let line := loadLine width buffer line
    loadRows width bmp_stride y (result.SetLine y line) buffer ifs

/-- Second part of `LoadBMP` (bmp_image.cpp:112-128), after the info header
has been read: allocation of the result and of the row buffer, and the loop
over the rows. -/
def loadPixels (bitmap_info_header : BitmapInfoHeader) (ifs : IFStream) :
    Except CppException (Image × IFStream) :=
  let result := Image.create bitmap_info_header.image_width
    bitmap_info_header.image_height Color.Black
  let height := result.GetHeight
  let width := result.GetWidth
  let bmp_stride := GetBMPStride width
  match vectorChar bmp_stride with
  | Except.error e => Except.error e
  | Except.ok buffer =>
    let (result, _, ifs) := loadRows width bmp_stride.toNat height.toNat result buffer ifs
    Except.ok (result, ifs)

/-- Function `LoadBMP` (bmp_image.cpp:101).  The result is the returned
image and the stream as it is left; `stackFile` and `stackInfo` are the
storage of the two header objects before they are constructed. -/
def LoadBMP (file : InPath) (stackFile stackInfo : Stack) :
    Except CppException (Image × IFStream) :=
  let ifs := IFStream.open file
  if ifs.fail then Except.ok (Image.empty, ifs)
  else
    let (mem, ifs) := ifs.read (BitmapFileHeader.init stackFile).bytes sizeofBitmapFileHeader
    let bitmap_file_header := BitmapFileHeader.ofBytes mem
    if bitmap_file_header.signature.getD 0 0 ≠ 66 ∨ bitmap_file_header.signature.getD 1 0 ≠ 77 then
      Except.ok (Image.empty, ifs)
    else
      let (mem, ifs) := ifs.read (BitmapInfoHeader.init stackInfo).bytes sizeofBitmapInfoHeader
      let bitmap_info_header := BitmapInfoHeader.ofBytes mem
      loadPixels bitmap_info_header ifs

end img_lib

/-! ## The converter (`src/ImgConverter/main.cpp`) -/

namespace ImgConverter

open img_lib

/-- Paths (`img_lib::Path`, a `std::filesystem::path`), kept as the string
they are made from. -/
abbrev Path := String

/-- Characters of the last component of a path: what follows the last
directory separator. -/
def filenameChars (cs : List Char) : List Char :=
  (cs.reverse.takeWhile (fun c => c ≠ '/')).reverse

/-- Characters of the extension of a file name as `path::extension` of the
standard library defines it: from the rightmost period on, and nothing when
there is no period, when the only period is the first character, or when the
name is one of the special names dot and dot-dot. -/
def extensionChars (f : List Char) : List Char :=
  if f = ['.'] ∨ f = ['.', '.'] then []
  else
    let after := f.reverse.takeWhile (fun c => c ≠ '.')
    if after.length = f.length then []
    else if after.length + 1 = f.length then []
    else '.' :: after.reverse

/-- Value of `path.extension().string()`. -/
def extension (p : Path) : String := String.mk (extensionChars (filenameChars p.data))

/-- Enumeration `Format` (main.cpp:12). -/
inductive Format where
  | BMP
  | JPEG
  | PPM
  | UNKNOWN
deriving DecidableEq, Repr

/-- Function `GetFormatByExtension` (main.cpp:19). -/
def GetFormatByExtension (input_file : Path) : Format :=
  let ext := extension input_file
  if ext = ".bmp" then Format.BMP
  else if ext = ".jpg" ∨ ext = ".jpeg" then Format.JPEG
  else if ext = ".ppm" then Format.PPM
  else Format.UNKNOWN

/-- The three handler objects that `GetFormatInterface` keeps (`bmp_`,
`jpeg_`, `ppm_`); a pointer to `ImageFormatInterface` that is not null points
to one of them. -/
inductive ImageFormatInterface where
  | bmp_
  | jpeg_
  | ppm_
deriving DecidableEq, Repr

/-- Function `GetFormatInterface` (main.cpp:78); `none` is the null pointer. -/
def GetFormatInterface (path : Path) : Option ImageFormatInterface :=
  match GetFormatByExtension path with
  | Format.BMP => some ImageFormatInterface.bmp_
  | Format.JPEG => some ImageFormatInterface.jpeg_
  | Format.PPM => some ImageFormatInterface.ppm_
  | Format.UNKNOWN => none

/-- Modelled from the spec: `SaveJPEG`, `LoadJPEG` (jpeg_image.h) and
`SavePPM`, `LoadPPM` (ppm_image.h) are missing; each is a
`Save(path, buffer) -> bool` or a `Load(path) -> Buffer`.  They are fields
of what `main` runs in, next to the file system as the streams of the BMP
codec see it and the storage of the codec's header objects. -/
structure Env where
  source : Path → InPath
  sink : Path → OutPath
  stackFile : Stack
  stackInfo : Stack
  LoadJPEG : Path → Except CppException Image
  SaveJPEG : Path → Image → Except CppException Bool
  LoadPPM : Path → Except CppException Image
  SavePPM : Path → Image → Except CppException Bool

/-- Virtual call `SaveImage` of the handler classes `ImageFormat::BMP`,
`ImageFormat::JPEG` and `ImageFormat::PPM` (main.cpp:44-74). -/
def ImageFormatInterface.SaveImage (env : Env) (h : ImageFormatInterface) (file : Path)
    (image : Image) : Except CppException Bool :=
  match h with
  | ImageFormatInterface.bmp_ =>
    match SaveBMP (env.sink file) env.stackFile env.stackInfo image with
    | Except.ok (r, _) => Except.ok r
    | Except.error e => Except.error e
  | ImageFormatInterface.jpeg_ => env.SaveJPEG file image
  | ImageFormatInterface.ppm_ => env.SavePPM file image

/-- Virtual call `LoadImage` of the handler classes (main.cpp:44-74). -/
def ImageFormatInterface.LoadImage (env : Env) (h : ImageFormatInterface) (file : Path) :
    Except CppException Image :=
  match h with
  | ImageFormatInterface.bmp_ =>
    match LoadBMP (env.source file) env.stackFile env.stackInfo with
    | Except.ok (image, _) => Except.ok image
    | Except.error e => Except.error e
  | ImageFormatInterface.jpeg_ => env.LoadJPEG file
  | ImageFormatInterface.ppm_ => env.LoadPPM file

/-- What a run of `main` does that can be seen from outside, in order. -/
inductive Event where
  | cerr (msg : String)
  | cout (msg : String)
  | load (h : ImageFormatInterface) (file : Path)
  | save (h : ImageFormatInterface) (file : Path)
deriving DecidableEq, Repr

/-- Function `main` (main.cpp:101); `argv` holds the `argc` arguments, the
program name first.  The result is the events of the run and the exit code,
or the exception that ended the run. -/
def main (env : Env) (argv : List String) : List Event × Except CppException Int :=
  let argc := argv.length
  if argc ≠ 3 then
    ([Event.cerr ("Usage: " ++ argv.getD 0 "" ++ " <in_file> <out_file>")], Except.ok 1)
  else
    let in_path : Path := argv.getD 1 ""
    let out_path : Path := argv.getD 2 ""
    match GetFormatInterface in_path with
    | none => ([Event.cerr "Unknown format of the input file"], Except.ok 2)
    | some input_format =>
      match GetFormatInterface out_path with
      | none => ([Event.cerr "Unknown format of the output file"], Except.ok 3)
      | some output_format =>
        match input_format.LoadImage env in_path with
        | Except.error e => ([Event.load input_format in_path], Except.error e)
        | Except.ok image =>
          if !image.valid then
            ([Event.load input_format in_path, Event.cerr "Loading failed"], Except.ok 4)
          else
            match output_format.SaveImage env out_path image with
            | Except.error e =>
              ([Event.load input_format in_path, Event.save output_format out_path],
                Except.error e)
            | Except.ok saved =>
              if !saved then
                ([Event.load input_format in_path, Event.save output_format out_path,
                  Event.cerr "Saving failed"], Except.ok 5)
              else
                ([Event.load input_format in_path, Event.save output_format out_path,
                  Event.cout "Successfully converted"], Except.ok 0)

end ImgConverter

namespace img_lib

/-! ## Reference layout of the pixel data -/

/-- The three octets of a pixel in file order: blue, green, red. -/
def bgr (c : Color) : List Byte := [c.b, c.g, c.r]

/-- One row of the file: the first `w` pixels of the row in file order,
then zero octets up to the stride. -/
def rowBytes (stride w : Nat) (line : List Color) : List Byte :=
  (List.range w).flatMap (fun x => bgr (line.getD x Color.Black))
    ++ List.replicate (stride - 3 * w) 0

/-- The rows `n - 1`, ..., `0` of an image in that order, as in the file. -/
def pixelData (image : Image) (stride w : Nat) : Nat → List Byte
  | 0 => []
  | y + 1 => rowBytes stride w (image.GetLine y) ++ pixelData image stride w y

/-- The 14 octets of the file header as `SaveBMP` writes them for an image
of the given dimensions; `stackFile` is the storage of the header object. -/
def savedFileHeader (stackFile : Stack) (width height : Int) : List Byte :=
  [66, 77] ++ (leBytes (wrapUInt32 (54 + wrapInt32 (GetBMPStride width * height))) 4
    ++ ([stackFile 6, stackFile 7, stackFile 8, stackFile 9] ++ leBytes 54 4))

/-- The 40 octets of the info header as `SaveBMP` writes them for an image of
the given dimensions. -/
def savedInfoHeader (width height : Int) : List Byte :=
  leBytes 40 4 ++ (int32Bytes width ++ (int32Bytes height ++ (leBytes 1 2 ++ leBytes 24 2
    ++ leBytes 0 4 ++ leBytes (wrapUInt32 (wrapInt32 (GetBMPStride width * height))) 4
    ++ int32Bytes 11811 ++ int32Bytes 11811 ++ int32Bytes 0 ++ int32Bytes 0x1000000)))

/-- The 54 octets of the two headers as `SaveBMP` writes them. -/
def savedHeader (stackFile : Stack) (width height : Int) : List Byte :=
  savedFileHeader stackFile width height ++ savedInfoHeader width height

/-- The bytes a call of `SaveBMP` left in the file (none when it threw). -/
def writtenBy : Except CppException (Bool × OFStream) → List Byte
  | Except.ok (_, ofs) => ofs.written
  | Except.error _ => []

/-- The row of `w` pixels that reading a row of an image column by column
yields. -/
def readRow (w : Nat) (line : List Color) : List Color :=
  (List.range w).map (fun x => line.getD x Color.Black)

/-- The pixels that the inner loop of `LoadBMP` makes of a row buffer: pixel
`x` has its b, g and r from the octets `3x`, `3x + 1` and `3x + 2`. -/
def decodeRow (w : Nat) (buffer : List Byte) : List Color :=
  (List.range w).map (fun x => Color.mk (buffer.getD (x * 3 + 2) 0)
    (buffer.getD (x * 3 + 1) 0) (buffer.getD (x * 3 + 0) 0))

/-- The image that the layout of a file defines, in the words of the
specification: `h` rows of `w` pixels, the pixel in row `y`, column `x` with
its b, g and r from the offsets `54 + (h - 1 - y) * stride(w) + 3x`, `+ 1` and
`+ 2` of the file.  No other octet of the file is looked at. -/
def referenceImage (bs : List Byte) (w h : Int) : Image :=
  ⟨w, h, (List.range h.toNat).map (fun y => (List.range w.toNat).map (fun x =>
    Color.mk
      (bs.getD (54 + (h.toNat - 1 - y) * (GetBMPStride w).toNat + 3 * x + 2) 0)
      (bs.getD (54 + (h.toNat - 1 - y) * (GetBMPStride w).toNat + 3 * x + 1) 0)
      (bs.getD (54 + (h.toNat - 1 - y) * (GetBMPStride w).toNat + 3 * x + 0) 0)))⟩

/-- The image a call of `LoadBMP` returned, or the exception it left by. -/
def imageOf : Except CppException (Image × IFStream) → Except CppException Image
  | Except.ok (image, _) => Except.ok image
  | Except.error e => Except.error e

/-- The octets of `bs` from offset `off`, `len` of them: a field of a file. -/
def fieldAt (bs : List Byte) (off len : Nat) : List Byte := (bs.drop off).take len

/-- The file `bs` holds, in the `len` octets at offset `off`, the value `v`
in little-endian order. -/
def fieldIs (bs : List Byte) (off len : Nat) (v : Int) : Prop :=
  (fieldAt bs off len).length = len ∧ (leNat (fieldAt bs off len) : Int) = v

instance (bs : List Byte) (off len : Nat) (v : Int) : Decidable (fieldIs bs off len v) := by
  unfold fieldIs; infer_instance

/-! ## Concrete inputs -/

/-- Header storage that held only zero octets. -/
def cleanStack : Stack := fun _ => 0

/-- Header storage that held the octet 0xCC everywhere. -/
def dirtyStack : Stack := fun _ => 0xCC

/-- A 1 x 1 black image. -/
def onePixel : Image := ⟨1, 1, [[Color.Black]]⟩

/-- A 2 x 3 image with eighteen different channel values. -/
def smallImage : Image :=
  ⟨2, 3, [[⟨1, 2, 3⟩, ⟨4, 5, 6⟩], [⟨7, 8, 9⟩, ⟨10, 11, 12⟩], [⟨13, 14, 15⟩, ⟨16, 17, 18⟩]]⟩

/-- The 2 x 1 image whose row is red, green. -/
def twoByOne : Image := ⟨2, 1, [[⟨255, 0, 0⟩, ⟨0, 255, 0⟩]]⟩

/-- An image without pixels: width 0, height 3. -/
def flatImage : Image := ⟨0, 3, []⟩

/-- A black image of one row, 715827882 pixels wide: the least width `w` for
which `w * 3 + 3` exceeds the largest `int`. -/
def wideImage : Image := ⟨715827882, 1, [List.replicate 715827882 Color.Black]⟩

/-- The file that `SaveBMP` makes of the 2 x 3 image: 78 bytes. -/
def smallFile : List Byte := writtenBy (SaveBMP (some 78) cleanStack cleanStack smallImage)

/-- The file of the 2 x 3 image cut after the first of its three rows: 62
bytes. -/
def truncatedFile : List Byte := smallFile.take 62

/-- A file of 54 bytes whose header declares the width -3 and the height 1. -/
def negativeWidthFile : List Byte := savedHeader cleanStack (-3) 1

/-- The file of the 2 x 3 image with every header octet outside the signature,
the width and the height replaced by 0xFF. -/
def scrambledFile : List Byte :=
  [66, 77] ++ List.replicate 16 0xFF ++ fieldAt smallFile 18 8 ++ List.replicate 28 0xFF
    ++ smallFile.drop 54

/-- A file of 54 bytes whose header declares the width 715827882 and the
height 1. -/
def wideFile : List Byte := savedHeader cleanStack 715827882 1

/-- The 54 bytes of `wideFile` followed by 2147483652 zero octets, one row of
the stride 4 * ceil(3 * 715827882 / 4), which is more than an `int` holds. -/
def wideFullFile : List Byte := wideFile ++ List.replicate 2147483652 0

/-- Header storage that held the value 1 in the octets of the width and of the
height of an info header, and zero elsewhere. -/
def oneByOneStack : Stack := fun i => if i = 4 ∨ i = 8 then 1 else 0

/-- The file that `SaveBMP` makes of the 1 x 1 black image. -/
def onePixelFile : List Byte := writtenBy (SaveBMP (some 58) cleanStack cleanStack onePixel)

end img_lib

namespace ImgConverter

open img_lib

/-- A small world for `main`: the files that can be read are `in.bmp`, the
file of the 1 x 1 black image, and `neg.bmp`, the file of 54 bytes that
declares the width -3; the only file that can be written is `out.bmp`, on a
device with room for 100 bytes; the JPEG and PPM functions load nothing and
save nothing. -/
def demoEnv : Env :=
  { source := fun p =>
      if p = "in.bmp" then some onePixelFile
      else if p = "neg.bmp" then some negativeWidthFile
      else none
    sink := fun p => if p = "out.bmp" then some 100 else none
    stackFile := cleanStack
    stackInfo := cleanStack
    LoadJPEG := fun _ => Except.ok Image.empty
    SaveJPEG := fun _ _ => Except.ok false
    LoadPPM := fun _ => Except.ok Image.empty
    SavePPM := fun _ _ => Except.ok false }

end ImgConverter

namespace img_lib

/-! ## Arithmetic of the stride and of the byte encodings -/

theorem wrapInt32_of_range (z : Int) (h1 : -2147483648 ≤ z) (h2 : z ≤ 2147483647) :
    wrapInt32 z = z := by
  unfold wrapInt32; omega

theorem wrapUInt32_of_range (z : Int) (h1 : 0 ≤ z) (h2 : z ≤ 4294967295) :
    wrapUInt32 z = z.toNat := by
  unfold wrapUInt32
  rw [Int.emod_eq_of_lt h1 (by omega)]

/-- Without overflow the stride is the exact value of `4 * ((3 w + 3) / 4)`. -/
theorem GetBMPStride_exact (w : Int) (h1 : 1 ≤ w) (h2 : 3 * w + 3 ≤ 2147483647) :
    GetBMPStride w = 4 * ((3 * w + 3) / 4) := by
  unfold GetBMPStride
  rw [wrapInt32_of_range (w * 3) (by omega) (by omega),
    wrapInt32_of_range (w * 3 + 3) (by omega) (by omega),
    Int.tdiv_eq_ediv (by omega) (by omega)]
  have e : w * 3 + 3 = 3 * w + 3 := by ring
  rw [e]
  apply wrapInt32_of_range <;> omega

/-- The result of `GetBMPStride` is always an `int`. -/
theorem GetBMPStride_le (w : Int) : GetBMPStride w ≤ 2147483647 := by
  unfold GetBMPStride wrapInt32; omega

/-- A stride above `3 w` only arises when `3 w + 3` did not overflow. -/
theorem no_overflow_of_lt_stride (w : Int) (h1 : 1 ≤ w) (h : 3 * w < GetBMPStride w) :
    3 * w + 3 ≤ 2147483647 := by
  by_contra hc
  have hle := GetBMPStride_le w
  have hw : w = 715827882 := by omega
  subst hw
  revert h
  decide

theorem leBytes_length (n k : Nat) : (leBytes n k).length = k := by
  induction k generalizing n with
  | zero => rfl
  | succ k ih => simp [leBytes, ih]

theorem leNat_leBytes (n k : Nat) : leNat (leBytes n k) = n % 256 ^ k := by
  induction k generalizing n with
  | zero => simp [leBytes, leNat, Nat.mod_one]
  | succ k ih =>
    simp only [leBytes, leNat, ih, Byte.ofNat]
    rw [pow_succ, Nat.mul_comm (256 ^ k) 256, Nat.mod_mul]

/-! ## Encoding one row -/

theorem flatMap_bgr_length (f : Nat → Color) (l : List Nat) :
    (l.flatMap (fun x => bgr (f x))).length = 3 * l.length := by
  induction l with
  | nil => rfl
  | cons c l ih =>
    rw [List.flatMap_cons, List.length_append, ih]
    simp only [bgr, List.length_cons, List.length_nil]
    omega

theorem rowBytes_length (s w : Nat) (ln : List Color) (h : 3 * w ≤ s) :
    (rowBytes s w ln).length = s := by
  unfold rowBytes
  rw [List.length_append, flatMap_bgr_length, List.length_replicate, List.length_range]; omega

theorem set_append_at {α : Type} (A B : List α) (i k : Nat) (x : α) (h : k = A.length + i) :
    (A ++ B).set k x = A ++ B.set i x := by
  subst h
  rw [List.set_append]
  simp

theorem drop_three {α : Type} (l : List α) (k : Nat) (h : k + 3 ≤ l.length) :
    ∃ a b c, l.drop k = a :: b :: c :: l.drop (k + 3) := by
  refine ⟨l[k], l[k + 1], l[k + 2], ?_⟩
  rw [List.drop_eq_getElem_cons (by omega : k < l.length),
    List.drop_eq_getElem_cons (by omega : k + 1 < l.length),
    List.drop_eq_getElem_cons (by omega : k + 2 < l.length)]

theorem saveColumns_eq (ln : List Color) (buffer : List Byte) (n : Nat)
    (hb : 3 * n ≤ buffer.length) :
    (List.range n).foldl (saveColumn ln) buffer
      = (List.range n).flatMap (fun x => bgr (ln.getD x Color.Black))
          ++ buffer.drop (3 * n) := by
  induction n with
  | zero => simp
  | succ n ih =>
    rw [List.range_succ, List.foldl_append, ih (by omega)]
    obtain ⟨a, b, c, hd⟩ := drop_three buffer (3 * n) (by omega)
    have hlen : ((List.range n).flatMap (fun x => bgr (ln.getD x Color.Black))).length
        = 3 * n := by
      rw [flatMap_bgr_length, List.length_range]
    simp only [List.foldl_cons, List.foldl_nil, saveColumn, hd]
    rw [set_append_at _ _ 0 _ _ (by omega), set_append_at _ _ 1 _ _ (by omega),
      set_append_at _ _ 2 _ _ (by omega), List.flatMap_append]
    have e : 3 * (n + 1) = 3 * n + 3 := by ring
    simp [List.set, bgr, e]

/-- The inner loop of `SaveBMP` turns a row buffer whose tail is still zero
into the row of the file. -/
theorem saveLine_eq (width : Int) (ln : List Color) (buffer : List Byte) (s : Nat)
    (hb : buffer.length = s) (hs : 3 * width.toNat ≤ s)
    (hpad : buffer.drop (3 * width.toNat) = List.replicate (s - 3 * width.toNat) 0) :
    saveLine width ln buffer = rowBytes s width.toNat ln := by
  unfold saveLine
  rw [saveColumns_eq ln buffer width.toNat (by omega), hpad]
  rfl

theorem rowBytes_drop (s w : Nat) (ln : List Color) :
    (rowBytes s w ln).drop (3 * w) = List.replicate (s - 3 * w) 0 := by
  unfold rowBytes
  have hl := flatMap_bgr_length (fun x => ln.getD x Color.Black) (List.range w)
  rw [List.length_range] at hl
  rw [List.drop_append_of_le_length (by omega), List.drop_of_length_le (by omega)]
  rfl

/-! ## Writing the rows -/

theorem write_ok (ofs : OFStream) (bs : List Byte) (hf : ofs.fail = false)
    (hr : bs.length ≤ ofs.room) :
    ofs.write bs = ⟨false, ofs.written ++ bs, ofs.room - bs.length⟩ := by
  simp [OFStream.write, hf, hr]

theorem pixelData_length (image : Image) (s w n : Nat) (hs : 3 * w ≤ s) :
    (pixelData image s w n).length = n * s := by
  induction n with
  | zero => simp [pixelData]
  | succ n ih =>
    rw [pixelData, List.length_append, rowBytes_length _ _ _ hs, ih]; ring

/-- The outer loop of `SaveBMP` appends the rows `n - 1`, ..., `0` to the
file when the device has room for them. -/
theorem saveRows_eq (image : Image) (width : Int) (s n : Nat) (buffer : List Byte)
    (ofs : OFStream) (hs : 3 * width.toNat ≤ s) (hb : buffer.length = s)
    (hpad : buffer.drop (3 * width.toNat) = List.replicate (s - 3 * width.toNat) 0)
    (hf : ofs.fail = false) (hroom : n * s ≤ ofs.room) :
    (saveRows image width n buffer ofs).2
      = ⟨false, ofs.written ++ pixelData image s width.toNat n, ofs.room - n * s⟩ := by
  induction n generalizing buffer ofs with
  | zero => cases ofs; simp_all [saveRows, pixelData]
  | succ n ih =>
    have hrow := saveLine_eq width (image.GetLine n) buffer s hb hs hpad
    have hlen := rowBytes_length s width.toNat (image.GetLine n) hs
    have hmul : (n + 1) * s = n * s + s := by ring
    simp only [saveRows, hrow]
    rw [write_ok ofs _ hf (by omega), ih _ _ hlen (rowBytes_drop _ _ _) rfl
      (by simp only [hlen]; omega)]
    simp only [pixelData, hlen, List.append_assoc, OFStream.mk.injEq, true_and]
    omega

/-! ## The whole output of `SaveBMP` -/

theorem savedFileHeader_length (sf : Stack) (w h : Int) :
    (savedFileHeader sf w h).length = 14 := by
  simp [savedFileHeader, leBytes_length]

theorem savedInfoHeader_length (w h : Int) : (savedInfoHeader w h).length = 40 := by
  simp [savedInfoHeader, int32Bytes, leBytes_length]

theorem savedHeader_length (sf : Stack) (w h : Int) : (savedHeader sf w h).length = 54 := by
  simp [savedHeader, savedFileHeader_length, savedInfoHeader_length]

theorem fileHeader_length (h : BitmapFileHeader) (h1 : h.signature.length = 2)
    (h2 : h.reserved.length = 4) : h.bytes.length = 14 := by
  simp [BitmapFileHeader.bytes, leBytes_length, h1, h2]

theorem infoHeader_length (h : BitmapInfoHeader) : h.bytes.length = 40 := by
  simp [BitmapInfoHeader.bytes, int32Bytes, leBytes_length]

theorem stride_facts (w : Int) (h1 : 1 ≤ w) (h2 : 3 * w + 3 ≤ 2147483647) :
    3 * w ≤ GetBMPStride w ∧ GetBMPStride w ≤ 3 * w + 3 ∧ GetBMPStride w % 4 = 0 := by
  rw [GetBMPStride_exact w h1 h2]; omega

/-- The output of `SaveBMP` on a device with enough room: the two headers
and the rows from the last to the first. -/
theorem SaveBMP_eq (room : Nat) (sf si : Stack) (image : Image)
    (hW : 1 ≤ image.width) (hH : 1 ≤ image.height)
    (hov : 3 * image.width + 3 ≤ 2147483647)
    (hroom : 54 + image.height.toNat * (GetBMPStride image.width).toNat ≤ room) :
    SaveBMP (some room) sf si image = Except.ok (true,
      ⟨false, savedHeader sf image.width image.height
          ++ pixelData image (GetBMPStride image.width).toNat image.width.toNat
              image.height.toNat,
        room - (54 + image.height.toNat * (GetBMPStride image.width).toNat)⟩) := by
  obtain ⟨hs1, hs2, hs3⟩ := stride_facts image.width hW hov
  have hvec : vectorChar (GetBMPStride image.width)
      = Except.ok (List.replicate (GetBMPStride image.width).toNat 0) := by
    simp [vectorChar]; omega
  have h3 : 3 * image.width.toNat ≤ (GetBMPStride image.width).toNat := by omega
  have hfl : ∀ a b : Nat, (BitmapFileHeader.bytes
      ⟨(BitmapFileHeader.init sf).signature, a, (BitmapFileHeader.init sf).reserved, b⟩).length
      = 14 := fun a b => fileHeader_length _ rfl rfl
  unfold SaveBMP
  simp only [OFStream.open, Image.GetHeight, Image.GetWidth, hvec]
  rw [if_neg (by simp), if_neg (by omega)]
  rw [write_ok ⟨false, [], room⟩ _ rfl (by rw [hfl]; simp only []; omega)]
  rw [write_ok _ _ rfl (by rw [infoHeader_length]; simp only [hfl]; omega)]
  simp only [hfl, infoHeader_length]
  rw [saveRows_eq image image.width (GetBMPStride image.width).toNat image.height.toNat _ _ h3
    (List.length_replicate _ _) (by simp) rfl (by simp only []; omega)]
  simp only [savedHeader, savedFileHeader, savedInfoHeader, BitmapFileHeader.bytes, BitmapInfoHeader.bytes, BitmapFileHeader.init,
    BitmapInfoHeader.init, sizeofBitmapFileHeader, sizeofBitmapInfoHeader, List.nil_append,
    Nat.reduceAdd, Nat.cast_ofNat, List.append_assoc]
  congr 3
  omega

theorem toNat_mul_cast (s h : Int) (hs : 0 ≤ s) (hh : 0 ≤ h) :
    ((h.toNat * s.toNat : Nat) : Int) = s * h := by
  rw [Nat.cast_mul, Int.toNat_of_nonneg hs, Int.toNat_of_nonneg hh]; ring

/-- The output of `SaveBMP`, the room of the device counted as an integer. -/
theorem SaveBMP_written (room : Nat) (sf si : Stack) (image : Image)
    (hW : 1 ≤ image.width) (hH : 1 ≤ image.height)
    (hov : 3 * image.width + 3 ≤ 2147483647)
    (hroom : 54 + GetBMPStride image.width * image.height ≤ room) :
    ∃ ofs, SaveBMP (some room) sf si image = Except.ok (true, ofs) ∧ ofs.fail = false ∧
      ofs.written = savedHeader sf image.width image.height
        ++ pixelData image (GetBMPStride image.width).toNat image.width.toNat
            image.height.toNat := by
  obtain ⟨hs1, -, -⟩ := stride_facts image.width hW hov
  have e := toNat_mul_cast (GetBMPStride image.width) image.height (by omega) (by omega)
  exact ⟨_, SaveBMP_eq room sf si image hW hH hov (by omega), rfl, rfl⟩

/-- The fields of the two headers, for field values that fit their types. -/
theorem savedHeader_fields (sf : Stack) (w h : Int) (pix : List Byte)
    (hw : 0 ≤ w) (hw2 : w ≤ 2147483647) (hh : 0 ≤ h) (hh2 : h ≤ 2147483647)
    (hd : 0 ≤ GetBMPStride w * h) (hd2 : 54 + GetBMPStride w * h ≤ 2147483647) :
    fieldAt (savedHeader sf w h ++ pix) 0 2 = [66, 77] ∧
    fieldIs (savedHeader sf w h ++ pix) 2 4 (54 + GetBMPStride w * h) ∧
    fieldIs (savedHeader sf w h ++ pix) 10 4 54 ∧
    fieldIs (savedHeader sf w h ++ pix) 14 4 40 ∧
    fieldIs (savedHeader sf w h ++ pix) 18 4 w ∧
    fieldIs (savedHeader sf w h ++ pix) 22 4 h ∧
    fieldIs (savedHeader sf w h ++ pix) 26 2 1 ∧
    fieldIs (savedHeader sf w h ++ pix) 28 2 24 ∧
    fieldIs (savedHeader sf w h ++ pix) 30 4 0 ∧
    fieldIs (savedHeader sf w h ++ pix) 34 4 (GetBMPStride w * h) ∧
    fieldIs (savedHeader sf w h ++ pix) 38 4 11811 ∧
    fieldIs (savedHeader sf w h ++ pix) 42 4 11811 ∧
    fieldIs (savedHeader sf w h ++ pix) 46 4 0 ∧
    fieldIs (savedHeader sf w h ++ pix) 50 4 0x01000000 := by
  have e1 : wrapInt32 (GetBMPStride w * h) = GetBMPStride w * h :=
    wrapInt32_of_range _ (by omega) (by omega)
  have e2 : wrapUInt32 (54 + GetBMPStride w * h) = (54 + GetBMPStride w * h).toNat :=
    wrapUInt32_of_range _ (by omega) (by omega)
  have e3 : wrapUInt32 (GetBMPStride w * h) = (GetBMPStride w * h).toNat :=
    wrapUInt32_of_range _ (by omega) (by omega)
  have e4 : wrapUInt32 w = w.toNat := wrapUInt32_of_range _ (by omega) (by omega)
  have e5 : wrapUInt32 h = h.toNat := wrapUInt32_of_range _ (by omega) (by omega)
  have e6 : wrapUInt32 11811 = 11811 := by decide
  have e7 : wrapUInt32 0 = 0 := by decide
  have e8 : wrapUInt32 0x1000000 = 16777216 := by decide
  simp only [savedHeader, savedFileHeader, savedInfoHeader, int32Bytes, e1, e2, e3, e4, e5, e6,
    e7, e8, leBytes, List.append_assoc, List.cons_append, List.nil_append, fieldIs, fieldAt,
    List.drop_succ_cons, List.drop_zero, List.take_succ_cons, List.take_zero, leNat,
    Byte.ofNat, List.length_cons, List.length_nil, true_and]
  refine ⟨?_, ?_, ?_, ?_, ?_, ?_, ?_, ?_, ?_, ?_, ?_, ?_, ?_⟩ <;> omega

/-! ## Offsets inside the pixel data -/

theorem flatMap_bgr_getElem (f : Nat → Color) (n x c : Nat) (hx : x < n) (hc : c < 3) :
    ((List.range n).flatMap (fun x => bgr (f x)))[3 * x + c]? = (bgr (f x))[c]? := by
  induction n with
  | zero => omega
  | succ n ih =>
    have hlen := flatMap_bgr_length f (List.range n)
    rw [List.length_range] at hlen
    rw [List.range_succ, List.flatMap_append, List.getElem?_append]
    by_cases hxn : x < n
    · rw [if_pos (by omega), ih hxn]
    · have hxe : x = n := by omega
      subst hxe
      rw [if_neg (by omega), hlen]
      have e : 3 * x + c - 3 * x = c := by omega
      simp [e]

theorem rowBytes_pixel (s w : Nat) (ln : List Color) (x c : Nat) (hx : x < w) (hc : c < 3) :
    (rowBytes s w ln)[3 * x + c]? = (bgr (ln.getD x Color.Black))[c]? := by
  have hlen := flatMap_bgr_length (fun x => ln.getD x Color.Black) (List.range w)
  rw [List.length_range] at hlen
  unfold rowBytes
  rw [List.getElem?_append, if_pos (by omega)]
  exact flatMap_bgr_getElem (fun x => ln.getD x Color.Black) w x c hx hc

theorem rowBytes_pad (s w : Nat) (ln : List Color) (j : Nat) (h1 : 3 * w ≤ j) (h2 : j < s) :
    (rowBytes s w ln)[j]? = some 0 := by
  have hlen := flatMap_bgr_length (fun x => ln.getD x Color.Black) (List.range w)
  rw [List.length_range] at hlen
  unfold rowBytes
  rw [List.getElem?_append, if_neg (by omega), List.getElem?_replicate, if_pos (by omega)]

/-- Row `y` of the image is the `k`-th row of the pixel data, `k = n - 1 - y`. -/
theorem pixelData_getElem (image : Image) (s w n k y j : Nat) (hs : 3 * w ≤ s)
    (hk : k + y + 1 = n) (hj : j < s) :
    (pixelData image s w n)[k * s + j]? = (rowBytes s w (image.GetLine y))[j]? := by
  induction n generalizing k with
  | zero => omega
  | succ n ih =>
    have hlen := rowBytes_length s w (image.GetLine n) hs
    rw [pixelData, List.getElem?_append]
    cases k with
    | zero =>
      have hy : y = n := by omega
      subst hy
      rw [if_pos (by omega)]
      simp
    | succ k =>
      have e : (k + 1) * s + j - s = k * s + j := by
        rw [Nat.add_mul, Nat.one_mul]; omega
      have hge : ¬ (k + 1) * s + j < s := by
        rw [Nat.add_mul, Nat.one_mul]; omega
      rw [if_neg (by rw [hlen]; exact hge), hlen, e]
      exact ih k (by omega)

theorem getElem?_after_header (hdr pix : List Byte) (i k : Nat) (hh : hdr.length = 54)
    (hk : k = 54 + i) : (hdr ++ pix)[k]? = pix[i]? := by
  subst hk
  rw [List.getElem?_append, if_neg (by omega), hh]
  congr 1; omega

/-! ## Properties of `GetBMPStride` -/

/-- C7: for every width w >= 1 with 3w + 3 in the range of a 32-bit int,
`GetBMPStride w` equals 4 * ceil(3w / 4), that is, it is a multiple of 4, at
least 3w, and no multiple of 4 that is at least 3w is smaller. -/
theorem C7_stride_formula (w : Int) (h1 : 1 ≤ w) (h2 : 3 * w + 3 ≤ 2147483647) :
    GetBMPStride w = 4 * ⌈(3 * (w : ℚ)) / 4⌉ ∧ 4 ∣ GetBMPStride w ∧
      3 * w ≤ GetBMPStride w ∧ ∀ m : Int, 4 ∣ m → 3 * w ≤ m → GetBMPStride w ≤ m := by
  have hq : ⌈(3 * (w : ℚ)) / 4⌉ = (3 * w + 3) / 4 := by
    rw [Int.ceil_eq_iff]
    have ha : 4 * ((3 * w + 3) / 4) ≤ 3 * w + 3 := by omega
    have hb : 3 * w ≤ 4 * ((3 * w + 3) / 4) := by omega
    have ha2 : (4 : ℚ) * (((3 * w + 3) / 4 : Int) : ℚ) ≤ 3 * (w : ℚ) + 3 := by exact_mod_cast ha
    have hb2 : 3 * (w : ℚ) ≤ (4 : ℚ) * (((3 * w + 3) / 4 : Int) : ℚ) := by exact_mod_cast hb
    constructor <;> linarith
  rw [hq, GetBMPStride_exact w h1 h2]
  refine ⟨rfl, ⟨(3 * w + 3) / 4, rfl⟩, by omega, ?_⟩
  rintro m ⟨c, rfl⟩ hm
  omega

/-- Witness of C7: the width 5. -/
theorem C7_stride_formula_witness :
    GetBMPStride 5 = 4 * ⌈(3 * ((5 : Int) : ℚ)) / 4⌉ ∧ 4 ∣ GetBMPStride 5 ∧
      3 * 5 ≤ GetBMPStride 5 ∧ ∀ m : Int, 4 ∣ m → 3 * 5 ≤ m → GetBMPStride 5 ≤ m :=
  C7_stride_formula 5 (by decide) (by decide)

/-- C8 as stated fails: the strides of the widths 1 to 5 are not 4, 4, 4, 12
and 16, because the widths 2 and 3 have the strides 8 and 12. -/
theorem C8_stride_table_counterexample :
    ¬ (GetBMPStride 1 = 4 ∧ GetBMPStride 2 = 4 ∧ GetBMPStride 3 = 4 ∧ GetBMPStride 4 = 12 ∧
      GetBMPStride 5 = 16) := by
  decide

/-- C8, amended: the strides of the widths 1, 2, 3, 4 and 5 are 4, 8, 12, 12
and 16. -/
theorem C8_stride_table :
    GetBMPStride 1 = 4 ∧ GetBMPStride 2 = 8 ∧ GetBMPStride 3 = 12 ∧ GetBMPStride 4 = 12 ∧
      GetBMPStride 5 = 16 := by
  decide

/-! ## Properties of `SaveBMP` -/

/-- C2: for an image with W >= 1 and H >= 1 whose sizes do not overflow a
32-bit int (neither 3W + 3 nor 54 + stride * H), written to a device with
room for the whole file, the output starts with the octets B, M and holds in
little-endian order the file size 54 + stride * H at offset 2, the pixel data
offset 54 at offset 10, the header size 40 at 14, the width at 18, the height
at 22, the plane count 1 in two octets at 26, the 24 bits per pixel in two
octets at 28, the compression 0 at 30, the data size stride * H at 34, the
resolutions 11811 at 38 and 42, the used colours 0 at 46 and the significant
colours 0x01000000 at 50. -/
theorem C2_header_fields (room : Nat) (sf si : Stack) (image : Image)
    (hW : 1 ≤ image.width) (hH : 1 ≤ image.height)
    (hov : 3 * image.width + 3 ≤ 2147483647)
    (hfit : 54 + GetBMPStride image.width * image.height ≤ 2147483647)
    (hroom : 54 + GetBMPStride image.width * image.height ≤ room) :
    ∃ ofs, SaveBMP (some room) sf si image = Except.ok (true, ofs) ∧
      fieldAt ofs.written 0 2 = [66, 77] ∧
      fieldIs ofs.written 2 4 (54 + GetBMPStride image.width * image.height) ∧
      fieldIs ofs.written 10 4 54 ∧
      fieldIs ofs.written 14 4 40 ∧
      fieldIs ofs.written 18 4 image.width ∧
      fieldIs ofs.written 22 4 image.height ∧
      fieldIs ofs.written 26 2 1 ∧
      fieldIs ofs.written 28 2 24 ∧
      fieldIs ofs.written 30 4 0 ∧
      fieldIs ofs.written 34 4 (GetBMPStride image.width * image.height) ∧
      fieldIs ofs.written 38 4 11811 ∧
      fieldIs ofs.written 42 4 11811 ∧
      fieldIs ofs.written 46 4 0 ∧
      fieldIs ofs.written 50 4 0x01000000 := by
  obtain ⟨ofs, hsave, -, hwr⟩ := SaveBMP_written room sf si image hW hH hov hroom
  obtain ⟨hs1, -, -⟩ := stride_facts image.width hW hov
  have hpos : 0 ≤ GetBMPStride image.width * image.height :=
    Int.mul_nonneg (by omega) (by omega)
  have hmul : image.width * 1 ≤ GetBMPStride image.width * image.height :=
    Int.mul_le_mul (by omega) hH (by omega) (by omega)
  have hmul2 : 1 * image.height ≤ GetBMPStride image.width * image.height :=
    Int.mul_le_mul (by omega) (le_refl _) (by omega) (by omega)
  refine ⟨ofs, hsave, ?_⟩
  rw [hwr]
  exact savedHeader_fields sf image.width image.height _ (by omega) (by omega) (by omega)
    (by omega) hpos hfit

/-- Witness of C2: the 2 x 3 image on a device with room for 100 bytes. -/
theorem C2_header_fields_witness :
    ∃ ofs, SaveBMP (some 100) dirtyStack dirtyStack smallImage = Except.ok (true, ofs) ∧
      fieldAt ofs.written 0 2 = [66, 77] ∧
      fieldIs ofs.written 2 4 (54 + GetBMPStride smallImage.width * smallImage.height) ∧
      fieldIs ofs.written 10 4 54 ∧
      fieldIs ofs.written 14 4 40 ∧
      fieldIs ofs.written 18 4 smallImage.width ∧
      fieldIs ofs.written 22 4 smallImage.height ∧
      fieldIs ofs.written 26 2 1 ∧
      fieldIs ofs.written 28 2 24 ∧
      fieldIs ofs.written 30 4 0 ∧
      fieldIs ofs.written 34 4 (GetBMPStride smallImage.width * smallImage.height) ∧
      fieldIs ofs.written 38 4 11811 ∧
      fieldIs ofs.written 42 4 11811 ∧
      fieldIs ofs.written 46 4 0 ∧
      fieldIs ofs.written 50 4 0x01000000 :=
  C2_header_fields 100 dirtyStack dirtyStack smallImage (by decide) (by decide) (by decide)
    (by decide) (by decide)

/-- The reserved field of the output holds the four octets that the storage
of the file header held at the offsets 6 to 9. -/
theorem SaveBMP_reserved (room : Nat) (sf si : Stack) (image : Image)
    (hW : 1 ≤ image.width) (hH : 1 ≤ image.height)
    (hov : 3 * image.width + 3 ≤ 2147483647)
    (hroom : 54 + GetBMPStride image.width * image.height ≤ room) :
    ∃ ofs, SaveBMP (some room) sf si image = Except.ok (true, ofs) ∧
      fieldAt ofs.written 6 4 = [sf 6, sf 7, sf 8, sf 9] := by
  obtain ⟨ofs, hsave, -, hwr⟩ := SaveBMP_written room sf si image hW hH hov hroom
  refine ⟨ofs, hsave, ?_⟩
  rw [hwr]
  simp [savedHeader, savedFileHeader, leBytes, fieldAt]

/-- C3 fails on the code: for the 1 x 1 black image, written while the storage
of the file header held the octet 0xCC, the reserved field at the offsets 6
to 9 of the output is 0xCC four times, not zero. -/
theorem C3_reserved_not_zeroed :
    fieldAt (writtenBy (SaveBMP (some 100) dirtyStack cleanStack onePixel)) 6 4
      = [0xCC, 0xCC, 0xCC, 0xCC] := by
  decide

/-- The width 715827882 makes `SaveBMP` leave by the exception of the row
buffer's constructor, whatever the device and the storage are. -/
theorem SaveBMP_wideImage (room : Nat) (sf si : Stack) :
    SaveBMP (some room) sf si wideImage = Except.error CppException.length_error := by
  have hs : GetBMPStride 715827882 = -2147483644 := by decide
  have hw : wideImage.width = 715827882 := rfl
  have hh : wideImage.height = 1 := rfl
  simp [SaveBMP, OFStream.open, Image.GetHeight, Image.GetWidth, hw, hh, hs, vectorChar]

/-- C5 as stated fails: for the one-row image of width 715827882 (W >= 1,
H >= 1) `SaveBMP` does not write 54 + stride * H bytes; it leaves by an
exception after the headers. -/
theorem C5_output_length_counterexample :
    1 ≤ wideImage.width ∧ 1 ≤ wideImage.height ∧ wideImage.WellFormed ∧
      ¬ ∃ ofs, SaveBMP (some 4294967296) cleanStack cleanStack wideImage = Except.ok (true, ofs) ∧
        (ofs.written.length : Int) = 54 + GetBMPStride wideImage.width * wideImage.height := by
  refine ⟨by decide, by decide, ⟨rfl, ?_⟩, ?_⟩
  · intro row hrow
    have hr : row = List.replicate 715827882 Color.Black := List.mem_singleton.mp hrow
    rw [hr]
    exact List.length_replicate _ _
  · rintro ⟨ofs, h, -⟩
    rw [SaveBMP_wideImage] at h
    cases h

/-- C5, amended: for every image with W >= 1, 3W + 3 in the range of a 32-bit
int, and H >= 1, written to a device with room for the whole file, the number
of bytes `SaveBMP` writes is exactly 54 + stride(W) * H. -/
theorem C5_output_length (room : Nat) (sf si : Stack) (image : Image)
    (hW : 1 ≤ image.width) (hH : 1 ≤ image.height)
    (hov : 3 * image.width + 3 ≤ 2147483647)
    (hroom : 54 + GetBMPStride image.width * image.height ≤ room) :
    ∃ ofs, SaveBMP (some room) sf si image = Except.ok (true, ofs) ∧
      (ofs.written.length : Int) = 54 + GetBMPStride image.width * image.height := by
  obtain ⟨ofs, hsave, -, hwr⟩ := SaveBMP_written room sf si image hW hH hov hroom
  obtain ⟨hs1, -, -⟩ := stride_facts image.width hW hov
  refine ⟨ofs, hsave, ?_⟩
  rw [hwr, List.length_append, savedHeader_length, pixelData_length _ _ _ _ (by omega)]
  have e := toNat_mul_cast (GetBMPStride image.width) image.height (by omega) (by omega)
  omega

/-- Witness of C5: the 2 x 3 image on a device with room for 100 bytes. -/
theorem C5_output_length_witness :
    ∃ ofs, SaveBMP (some 100) dirtyStack dirtyStack smallImage = Except.ok (true, ofs) ∧
      (ofs.written.length : Int) = 54 + GetBMPStride smallImage.width * smallImage.height :=
  C5_output_length 100 dirtyStack dirtyStack smallImage (by decide) (by decide) (by decide)
    (by decide)

/-- C4 as stated fails: for the one-row image of width 715827882 (W >= 1,
H >= 1) and its pixel (0, 0), no blue channel is written at offset 54;
`SaveBMP` leaves by an exception before the first row. -/
theorem C4_pixel_layout_counterexample :
    1 ≤ wideImage.width ∧ 1 ≤ wideImage.height ∧
      ¬ ∃ ofs, SaveBMP (some 4294967296) cleanStack cleanStack wideImage = Except.ok (true, ofs) ∧
        ofs.written[(54 + (wideImage.height - 1 - ((0 : Nat) : Int))
          * GetBMPStride wideImage.width + 3 * ((0 : Nat) : Int) + 0).toNat]?
            = some (wideImage.pixel 0 0).b := by
  refine ⟨by decide, by decide, ?_⟩
  rintro ⟨ofs, h, -⟩
  rw [SaveBMP_wideImage] at h
  cases h

/-- C4, amended: for every image with W >= 1, 3W + 3 in the range of a 32-bit
int, and H >= 1, written to a device with room for the whole file, and every
pixel (x, y) with x < W and y < H, the bytes at the offsets
54 + (H - 1 - y) * stride(W) + 3x + 0, + 1 and + 2 of the output are the b, g
and r channel of the pixel in row y, column x. -/
theorem C4_pixel_layout (room : Nat) (sf si : Stack) (image : Image) (x y : Nat)
    (hW : 1 ≤ image.width) (hH : 1 ≤ image.height)
    (hov : 3 * image.width + 3 ≤ 2147483647)
    (hroom : 54 + GetBMPStride image.width * image.height ≤ room)
    (hx : (x : Int) < image.width) (hy : (y : Int) < image.height) :
    ∃ ofs, SaveBMP (some room) sf si image = Except.ok (true, ofs) ∧
      ofs.written[(54 + (image.height - 1 - y) * GetBMPStride image.width + 3 * x + 0).toNat]?
        = some (image.pixel y x).b ∧
      ofs.written[(54 + (image.height - 1 - y) * GetBMPStride image.width + 3 * x + 1).toNat]?
        = some (image.pixel y x).g ∧
      ofs.written[(54 + (image.height - 1 - y) * GetBMPStride image.width + 3 * x + 2).toNat]?
        = some (image.pixel y x).r := by
  obtain ⟨ofs, hsave, -, hwr⟩ := SaveBMP_written room sf si image hW hH hov hroom
  obtain ⟨hs1, -, -⟩ := stride_facts image.width hW hov
  refine ⟨ofs, hsave, ?_⟩
  have hk : ∀ c : Nat, c < 3 →
      ofs.written[(54 + (image.height - 1 - y) * GetBMPStride image.width + 3 * x + c).toNat]?
        = (bgr (image.pixel y x))[c]? := by
    intro c hc
    have hA : (((image.height - 1 - y).toNat * (GetBMPStride image.width).toNat : Nat) : Int)
        = (image.height - 1 - y) * GetBMPStride image.width := by
      rw [Nat.cast_mul, Int.toNat_of_nonneg (by omega), Int.toNat_of_nonneg (by omega)]
    rw [hwr, getElem?_after_header _ _ ((image.height - 1 - y).toNat
        * (GetBMPStride image.width).toNat + (3 * x + c)) _ (savedHeader_length _ _ _) (by omega),
      pixelData_getElem image _ _ _ _ y _ (by omega) (by omega) (by omega),
      rowBytes_pixel _ _ _ x c (by omega) hc]
    rfl
  exact ⟨hk 0 (by decide), hk 1 (by decide), hk 2 (by decide)⟩

/-- Witness of C4: the pixel in column 1 of row 2 of the 2 x 3 image. -/
theorem C4_pixel_layout_witness :
    ∃ ofs, SaveBMP (some 100) dirtyStack dirtyStack smallImage = Except.ok (true, ofs) ∧
      ofs.written[(54 + (smallImage.height - 1 - ((2 : Nat) : Int))
        * GetBMPStride smallImage.width + 3 * ((1 : Nat) : Int) + 0).toNat]?
        = some (smallImage.pixel 2 1).b ∧
      ofs.written[(54 + (smallImage.height - 1 - ((2 : Nat) : Int))
        * GetBMPStride smallImage.width + 3 * ((1 : Nat) : Int) + 1).toNat]?
        = some (smallImage.pixel 2 1).g ∧
      ofs.written[(54 + (smallImage.height - 1 - ((2 : Nat) : Int))
        * GetBMPStride smallImage.width + 3 * ((1 : Nat) : Int) + 2).toNat]?
        = some (smallImage.pixel 2 1).r :=
  C4_pixel_layout 100 dirtyStack dirtyStack smallImage 1 2 (by decide) (by decide) (by decide)
    (by decide) (by decide) (by decide)

/-- C6: for every image with W >= 1 and H >= 1, written to a device with room
for the whole file, every row index k < H of the file and every j with
3W <= j < stride(W), the byte at offset 54 + k * stride(W) + j of the output
is zero, whatever the pixels are. -/
theorem C6_padding_zero (room : Nat) (sf si : Stack) (image : Image) (k j : Nat)
    (hW : 1 ≤ image.width) (hH : 1 ≤ image.height)
    (hroom : 54 + GetBMPStride image.width * image.height ≤ room)
    (hk : (k : Int) < image.height)
    (hj1 : 3 * image.width ≤ j) (hj2 : (j : Int) < GetBMPStride image.width) :
    ∃ ofs, SaveBMP (some room) sf si image = Except.ok (true, ofs) ∧
      ofs.written[54 + k * (GetBMPStride image.width).toNat + j]? = some 0 := by
  have hov := no_overflow_of_lt_stride image.width hW (by omega)
  obtain ⟨ofs, hsave, -, hwr⟩ := SaveBMP_written room sf si image hW hH hov hroom
  refine ⟨ofs, hsave, ?_⟩
  rw [hwr, getElem?_after_header _ _ (k * (GetBMPStride image.width).toNat + j) _
      (savedHeader_length _ _ _) (by omega),
    pixelData_getElem image _ _ _ k (image.height.toNat - 1 - k) j (by omega) (by omega)
      (by omega),
    rowBytes_pad _ _ _ j (by omega) (by omega)]

/-- Witness of C6: the second padding byte of the first row of the file of the
2 x 3 image. -/
theorem C6_padding_zero_witness :
    ∃ ofs, SaveBMP (some 100) dirtyStack dirtyStack smallImage = Except.ok (true, ofs) ∧
      ofs.written[54 + 0 * (GetBMPStride smallImage.width).toNat + 7]? = some 0 :=
  C6_padding_zero 100 dirtyStack dirtyStack smallImage 0 7 (by decide) (by decide) (by decide)
    (by decide) (by decide) (by decide)

/-- C10: for every image whose width or height is not positive, and every
destination, `SaveBMP` returns false and no byte is written. -/
theorem C10_invalid_dimensions (file : OutPath) (sf si : Stack) (image : Image)
    (h : image.width ≤ 0 ∨ image.height ≤ 0) :
    ∃ ofs, SaveBMP file sf si image = Except.ok (false, ofs) ∧ ofs.written = [] := by
  cases file with
  | none => exact ⟨_, rfl, rfl⟩
  | some room =>
    refine ⟨⟨false, [], room⟩, ?_, rfl⟩
    unfold SaveBMP
    simp only [OFStream.open, Image.GetHeight, Image.GetWidth]
    rw [if_neg (by simp), if_pos (by omega)]

/-- Witness of C10: the image of width 0 and height 3. -/
theorem C10_invalid_dimensions_witness :
    ∃ ofs, SaveBMP (some 100) dirtyStack dirtyStack flatImage = Except.ok (false, ofs) ∧
      ofs.written = [] :=
  C10_invalid_dimensions (some 100) dirtyStack dirtyStack flatImage (by decide)

/-! ## Decoding one row -/

theorem getD_mid {α : Type} (A rest : List α) (c d : α) (n : Nat) (hn : n = A.length) :
    (A ++ c :: rest).getD n d = c := by
  subst hn
  rw [List.getD_eq_getElem?_getD, List.getElem?_append_right (le_refl _), Nat.sub_self]
  simp

theorem set_mid {α : Type} (A rest : List α) (c v : α) (n : Nat) (hn : n = A.length) :
    (A ++ c :: rest).set n v = A ++ v :: rest := by
  subst hn
  rw [List.set_append, if_neg (by omega), Nat.sub_self]
  rfl

theorem loadColumns_eq (buffer : List Byte) (ln : List Color) (n : Nat) (hn : n ≤ ln.length) :
    (List.range n).foldl (loadColumn buffer) ln
      = (List.range n).map (fun x => Color.mk (buffer.getD (x * 3 + 2) 0)
          (buffer.getD (x * 3 + 1) 0) (buffer.getD (x * 3 + 0) 0)) ++ ln.drop n := by
  induction n with
  | zero => simp
  | succ n ih =>
    rw [List.range_succ, List.foldl_append, ih (by omega), List.map_append,
      List.drop_eq_getElem_cons (by omega : n < ln.length)]
    have hl : n = ((List.range n).map (fun x => Color.mk (buffer.getD (x * 3 + 2) 0)
        (buffer.getD (x * 3 + 1) 0) (buffer.getD (x * 3 + 0) 0))).length := by simp
    simp only [List.foldl_cons, List.foldl_nil, loadColumn]
    rw [getD_mid _ _ _ _ n hl, set_mid _ _ _ _ n hl, getD_mid _ _ _ _ n hl,
      set_mid _ _ _ _ n hl, getD_mid _ _ _ _ n hl, set_mid _ _ _ _ n hl]
    simp

theorem rowBytes_getD (s w : Nat) (src : List Color) (x c : Nat) (hx : x < w) (hc : c < 3) :
    (rowBytes s w src).getD (x * 3 + c) 0 = ((bgr (src.getD x Color.Black))[c]?).getD 0 := by
  rw [List.getD_eq_getElem?_getD, Nat.mul_comm x 3, rowBytes_pixel s w src x c hx hc]

/-- The inner loop of `LoadBMP` turns a row of the file back into the pixels
it was made from. -/
theorem loadLine_rowBytes (width : Int) (s : Nat) (src ln : List Color)
    (hl : ln.length = width.toNat) :
    loadLine width (rowBytes s width.toNat src) ln = readRow width.toNat src := by
  unfold loadLine readRow
  rw [loadColumns_eq _ _ _ (by omega), List.drop_of_length_le (by omega), List.append_nil]
  apply List.map_congr_left
  intro x hx
  have hx2 : x < width.toNat := List.mem_range.mp hx
  rw [rowBytes_getD _ _ _ _ 2 hx2 (by decide), rowBytes_getD _ _ _ _ 1 hx2 (by decide),
    rowBytes_getD _ _ _ _ 0 hx2 (by decide)]
  rfl

/-! ## Reading the rows -/

theorem read_ok (ifs : IFStream) (mem : List Byte) (n : Nat) (hf : ifs.fail = false)
    (hn : n ≤ (ifs.data.drop ifs.pos).length) (hm : mem.length = n) :
    ifs.read mem n = ((ifs.data.drop ifs.pos).take n, ⟨false, ifs.data, ifs.pos + n⟩) := by
  cases ifs with
  | mk f d p =>
    simp only at hf hn
    subst hf
    rw [List.length_drop] at hn
    simp [IFStream.read, hn, List.drop_of_length_le (le_of_eq hm)]

theorem readRow_length (w : Nat) (src : List Color) : (readRow w src).length = w := by
  simp [readRow]

theorem drop_set_self {α : Type} (l : List α) (n : Nat) (a : α) (hn : n < l.length) :
    (l.set n a).drop n = a :: l.drop (n + 1) := by
  rw [List.set_eq_take_append_cons_drop, if_pos hn,
    List.drop_left' (by rw [List.length_take]; omega)]

/-- The outer loop of `LoadBMP` replaces the rows `n - 1`, ..., `0` of the
result by the rows read back from the pixel data, and leaves the stream behind
that data. -/
theorem loadRows_eq (image : Image) (width : Int) (s n : Nat) (result : Image)
    (buffer : List Byte) (ifs : IFStream) (rest : List Byte)
    (hs : 3 * width.toNat ≤ s) (hb : buffer.length = s) (hf : ifs.fail = false)
    (hd : ifs.data.drop ifs.pos = pixelData image s width.toNat n ++ rest)
    (hr : ∀ row ∈ result.rows, row.length = width.toNat)
    (hn : n ≤ result.rows.length) :
    (loadRows width s n result buffer ifs).1
        = ⟨result.width, result.height,
            (List.range n).map (fun y => readRow width.toNat (image.GetLine y))
              ++ result.rows.drop n⟩ ∧
      (loadRows width s n result buffer ifs).2.2 = ⟨false, ifs.data, ifs.pos + n * s⟩ := by
  induction n generalizing result buffer ifs with
  | zero =>
    cases ifs
    simp_all [loadRows]
  | succ n ih =>
    have hrl := rowBytes_length s width.toNat (image.GetLine n) hs
    have hd2 : ifs.data.drop ifs.pos
        = rowBytes s width.toNat (image.GetLine n)
          ++ (pixelData image s width.toNat n ++ rest) := by
      rw [hd, pixelData, List.append_assoc]
    have hread := read_ok ifs buffer s hf (by rw [hd2, List.length_append]; omega) hb
    rw [hd2, List.take_left' hrl] at hread
    have hline : (result.GetLine n).length = width.toNat := by
      unfold Image.GetLine
      rw [List.getD_eq_getElem _ _ (by omega : n < result.rows.length)]
      exact hr _ (List.getElem_mem _)
    have hload := loadLine_rowBytes width s (image.GetLine n) (result.GetLine n) hline
    have hd3 : List.drop (ifs.pos + s) ifs.data = pixelData image s width.toNat n ++ rest := by
      rw [← List.drop_drop, hd2, List.drop_left' hrl]
    have hr2 : ∀ row ∈ (result.SetLine n (readRow width.toNat (image.GetLine n))).rows,
        row.length = width.toNat := by
      intro row hrow
      rcases List.mem_or_eq_of_mem_set hrow with h | h
      · exact hr row h
      · rw [h, readRow_length]
    have hn2 : n ≤ (result.SetLine n (readRow width.toNat (image.GetLine n))).rows.length := by
      simp only [Image.SetLine, List.length_set]; omega
    obtain ⟨ih1, ih2⟩ := ih (result.SetLine n (readRow width.toNat (image.GetLine n)))
      (rowBytes s width.toNat (image.GetLine n)) ⟨false, ifs.data, ifs.pos + s⟩ hrl rfl hd3 hr2 hn2
    simp only [loadRows, hread, hload]
    refine ⟨?_, ?_⟩
    · rw [ih1]
      simp only [Image.SetLine, drop_set_self _ _ _ (by omega : n < result.rows.length),
        List.range_succ, List.map_append, List.map_cons, List.map_nil, List.append_assoc,
        List.singleton_append]
    · rw [ih2]
      simp only [IFStream.mk.injEq, true_and]
      rw [Nat.add_mul, Nat.one_mul]; omega

/-! ## Reading back what `SaveBMP` wrote -/

theorem int32_roundtrip (z : Int) (h1 : 0 ≤ z) (h2 : z ≤ 2147483647) :
    int32OfBytes (int32Bytes z) = z := by
  unfold int32OfBytes int32Bytes
  rw [leNat_leBytes, wrapUInt32_of_range z h1 (by omega)]
  have e : z.toNat % 256 ^ 4 = z.toNat := Nat.mod_eq_of_lt (by norm_num; omega)
  rw [e, Int.toNat_of_nonneg h1]
  exact wrapInt32_of_range z (by omega) h2

theorem int32Bytes_length (z : Int) : (int32Bytes z).length = 4 := leBytes_length _ 4

theorem savedFileHeader_signature (sf : Stack) (w h : Int) :
    (BitmapFileHeader.ofBytes (savedFileHeader sf w h)).signature = [66, 77] := by
  simp [BitmapFileHeader.ofBytes, savedFileHeader]

theorem savedInfoHeader_width (w h : Int) (h1 : 0 ≤ w) (h2 : w ≤ 2147483647) :
    (BitmapInfoHeader.ofBytes (savedInfoHeader w h)).image_width = w := by
  have e : ((savedInfoHeader w h).drop 4).take 4 = int32Bytes w := by
    unfold savedInfoHeader
    rw [List.drop_left' (leBytes_length _ _), List.take_left' (int32Bytes_length _)]
  simp only [BitmapInfoHeader.ofBytes, e]
  exact int32_roundtrip w h1 h2

theorem savedInfoHeader_height (w h : Int) (h1 : 0 ≤ h) (h2 : h ≤ 2147483647) :
    (BitmapInfoHeader.ofBytes (savedInfoHeader w h)).image_height = h := by
  have e : ((savedInfoHeader w h).drop 8).take 4 = int32Bytes h := by
    unfold savedInfoHeader
    rw [← List.append_assoc (leBytes 40 4),
      List.drop_left' (by rw [List.length_append, leBytes_length, int32Bytes_length]),
      List.take_left' (int32Bytes_length _)]
  simp only [BitmapInfoHeader.ofBytes, e]
  exact int32_roundtrip h h1 h2

/-- The path of `LoadBMP` through an accepted signature, in terms of the two
header reads. -/
theorem LoadBMP_accept (data : List Byte) (lf li : Stack) (m1 m2 : List Byte)
    (i1 i2 : IFStream)
    (h1 : IFStream.read ⟨false, data, 0⟩ (BitmapFileHeader.init lf).bytes 14 = (m1, i1))
    (hsig : (BitmapFileHeader.ofBytes m1).signature = [66, 77])
    (h2 : IFStream.read i1 (BitmapInfoHeader.init li).bytes 40 = (m2, i2)) :
    LoadBMP (some data) lf li = loadPixels (BitmapInfoHeader.ofBytes m2) i2 := by
  unfold LoadBMP
  simp only [IFStream.open, sizeofBitmapFileHeader, sizeofBitmapInfoHeader, h1, hsig, h2]
  simp

/-- The path of `LoadBMP` through a rejected signature. -/
theorem LoadBMP_reject (data : List Byte) (lf li : Stack) (m1 : List Byte) (i1 : IFStream)
    (h1 : IFStream.read ⟨false, data, 0⟩ (BitmapFileHeader.init lf).bytes 14 = (m1, i1))
    (hsig : (BitmapFileHeader.ofBytes m1).signature.getD 0 0 ≠ 66
      ∨ (BitmapFileHeader.ofBytes m1).signature.getD 1 0 ≠ 77) :
    LoadBMP (some data) lf li = Except.ok (Image.empty, i1) := by
  unfold LoadBMP
  simp only [IFStream.open, sizeofBitmapFileHeader, h1]
  rw [if_neg (by simp), if_pos hsig]

/-- The second part of `LoadBMP` on pixel data as `SaveBMP` lays it out. -/
theorem loadPixels_eq (hdr : BitmapInfoHeader) (ifs : IFStream) (image : Image)
    (rest : List Byte) (hW : 1 ≤ hdr.image_width)
    (hov : 3 * hdr.image_width + 3 ≤ 2147483647) (hf : ifs.fail = false)
    (hd : ifs.data.drop ifs.pos = pixelData image (GetBMPStride hdr.image_width).toNat
      hdr.image_width.toNat hdr.image_height.toNat ++ rest) :
    loadPixels hdr ifs = Except.ok (⟨hdr.image_width, hdr.image_height,
        (List.range hdr.image_height.toNat).map
          (fun y => readRow hdr.image_width.toNat (image.GetLine y))⟩,
      ⟨false, ifs.data,
        ifs.pos + hdr.image_height.toNat * (GetBMPStride hdr.image_width).toNat⟩) := by
  obtain ⟨hs1, hs2, hs3⟩ := stride_facts hdr.image_width hW hov
  have hvec : vectorChar (GetBMPStride hdr.image_width)
      = Except.ok (List.replicate (GetBMPStride hdr.image_width).toNat 0) := by
    simp [vectorChar]; omega
  have h3 : 3 * hdr.image_width.toNat ≤ (GetBMPStride hdr.image_width).toNat := by omega
  obtain ⟨e1, e2⟩ := loadRows_eq image hdr.image_width (GetBMPStride hdr.image_width).toNat
    hdr.image_height.toNat (Image.create hdr.image_width hdr.image_height Color.Black)
    (List.replicate (GetBMPStride hdr.image_width).toNat 0) ifs rest h3
    (List.length_replicate _ _) hf hd
    (by
      intro row hrow
      simp only [Image.create] at hrow
      rw [List.eq_of_mem_replicate hrow, List.length_replicate])
    (by simp [Image.create])
  unfold loadPixels
  simp only [Image.GetWidth, Image.GetHeight, Image.create, hvec]
  simp only [Image.create] at e1 e2
  rw [e1, e2]
  simp

/-- Reading back with `LoadBMP` the output of `SaveBMP` gives the image of the
same dimensions whose rows are the rows of the source read column by column. -/
theorem LoadBMP_saved (lf li sf : Stack) (image : Image)
    (hW : 1 ≤ image.width) (hH : 1 ≤ image.height)
    (hov : 3 * image.width + 3 ≤ 2147483647) (hH2 : image.height ≤ 2147483647) :
    ∃ ifs, LoadBMP (some (savedHeader sf image.width image.height
        ++ pixelData image (GetBMPStride image.width).toNat image.width.toNat
            image.height.toNat)) lf li
      = Except.ok (⟨image.width, image.height,
          (List.range image.height.toNat).map
            (fun y => readRow image.width.toNat (image.GetLine y))⟩, ifs) := by
  generalize hpix : pixelData image (GetBMPStride image.width).toNat image.width.toNat
    image.height.toNat = pix
  have hdata : savedHeader sf image.width image.height ++ pix
      = savedFileHeader sf image.width image.height
        ++ (savedInfoHeader image.width image.height ++ pix) := by
    rw [savedHeader, List.append_assoc]
  have hl1 := savedFileHeader_length sf image.width image.height
  have hl2 := savedInfoHeader_length image.width image.height
  have hr1 := read_ok ⟨false, savedHeader sf image.width image.height ++ pix, 0⟩
    (BitmapFileHeader.init lf).bytes 14 rfl
    (by simp only [List.drop_zero, hdata, List.length_append]; omega)
    (fileHeader_length _ rfl rfl)
  simp only [List.drop_zero, Nat.zero_add] at hr1
  rw [hdata, List.take_left' hl1, ← hdata] at hr1
  have hr2 := read_ok ⟨false, savedHeader sf image.width image.height ++ pix, 14⟩
    (BitmapInfoHeader.init li).bytes 40 rfl
    (by simp only [hdata, List.drop_left' hl1, List.length_append]; omega)
    (infoHeader_length _)
  simp only [Nat.reduceAdd] at hr2
  rw [hdata, List.drop_left' hl1, List.take_left' hl2, ← hdata] at hr2
  have hw := savedInfoHeader_width image.width image.height (by omega) (by omega)
  have hh := savedInfoHeader_height image.width image.height (by omega) hH2
  have hdrop : List.drop 54 (savedHeader sf image.width image.height ++ pix) = pix ++ [] := by
    rw [List.drop_left' (savedHeader_length _ _ _), List.append_nil]
  have hpx := loadPixels_eq (BitmapInfoHeader.ofBytes (savedInfoHeader image.width image.height))
    ⟨false, savedHeader sf image.width image.height ++ pix, 54⟩ image []
    (by rw [hw]; exact hW) (by rw [hw]; exact hov) rfl (by rw [hw, hh, hpix]; exact hdrop)
  rw [hw, hh] at hpx
  exact ⟨_, (LoadBMP_accept _ lf li _ _ _ _ hr1 (savedFileHeader_signature _ _ _) hr2).trans hpx⟩

theorem readRows_pixel (image : Image) (w h x y : Nat) (hx : x < w) (hy : y < h) :
    Image.pixel ⟨(w : Int), (h : Int),
        (List.range h).map (fun y => readRow w (image.GetLine y))⟩ y x = image.pixel y x := by
  simp only [Image.pixel, Image.GetLine, List.getD_eq_getElem?_getD, List.getElem?_map,
    List.getElem?_range hy, Option.map_some', Option.getD_some, readRow,
    List.getElem?_range hx]

/-- C1: for every image with W >= 1 and H >= 1 whose sizes do not overflow a
32-bit int (neither 3W + 3 nor 54 + stride * H), written to a device with
room for the whole file, `LoadBMP` applied to exactly the bytes `SaveBMP`
wrote returns an image with the same width, the same height and the same r,
g and b in every pixel (x, y) with x < W and y < H. -/
theorem C1_round_trip (room : Nat) (sf si lf li : Stack) (image : Image)
    (hW : 1 ≤ image.width) (hH : 1 ≤ image.height)
    (hov : 3 * image.width + 3 ≤ 2147483647)
    (hfit : 54 + GetBMPStride image.width * image.height ≤ 2147483647)
    (hroom : 54 + GetBMPStride image.width * image.height ≤ room) :
    ∃ ofs ifs out, SaveBMP (some room) sf si image = Except.ok (true, ofs) ∧
      LoadBMP (some ofs.written) lf li = Except.ok (out, ifs) ∧
      out.width = image.width ∧ out.height = image.height ∧
      ∀ x y : Nat, (x : Int) < image.width → (y : Int) < image.height →
        (out.pixel y x).r = (image.pixel y x).r ∧ (out.pixel y x).g = (image.pixel y x).g ∧
          (out.pixel y x).b = (image.pixel y x).b := by
  obtain ⟨ofs, hsave, -, hwr⟩ := SaveBMP_written room sf si image hW hH hov hroom
  obtain ⟨hs1, -, -⟩ := stride_facts image.width hW hov
  have hmul : 1 * image.height ≤ GetBMPStride image.width * image.height :=
    Int.mul_le_mul (by omega) (le_refl _) (by omega) (by omega)
  obtain ⟨ifs, hload⟩ := LoadBMP_saved lf li sf image hW hH hov (by omega)
  refine ⟨ofs, ifs, ⟨image.width, image.height, (List.range image.height.toNat).map
    (fun y => readRow image.width.toNat (image.GetLine y))⟩, hsave, by rw [hwr]; exact hload,
    rfl, rfl, ?_⟩
  intro x y hx hy
  have hp := readRows_pixel image image.width.toNat image.height.toNat x y (by omega) (by omega)
  rw [Int.toNat_of_nonneg (by omega), Int.toNat_of_nonneg (by omega)] at hp
  rw [hp]
  exact ⟨rfl, rfl, rfl⟩

/-- Witness of C1: the 2 x 3 image on a device with room for 100 bytes. -/
theorem C1_round_trip_witness :
    ∃ ofs ifs out, SaveBMP (some 100) dirtyStack cleanStack smallImage = Except.ok (true, ofs) ∧
      LoadBMP (some ofs.written) cleanStack dirtyStack = Except.ok (out, ifs) ∧
      out.width = smallImage.width ∧ out.height = smallImage.height ∧
      ∀ x y : Nat, (x : Int) < smallImage.width → (y : Int) < smallImage.height →
        (out.pixel y x).r = (smallImage.pixel y x).r ∧
          (out.pixel y x).g = (smallImage.pixel y x).g ∧
          (out.pixel y x).b = (smallImage.pixel y x).b :=
  C1_round_trip 100 dirtyStack cleanStack cleanStack dirtyStack smallImage (by decide)
    (by decide) (by decide) (by decide) (by decide)

/-! ## Rejection of a foreign signature -/

/-- The first read of `LoadBMP` on a file of at least two bytes: the first two
bytes of the header object are the first two bytes of the file, and the read
position is behind the file header or at the end of a shorter file. -/
theorem read_file_header (data : List Byte) (lf : Stack) (h2 : 2 ≤ data.length) :
    ∃ m1 i1, IFStream.read ⟨false, data, 0⟩ (BitmapFileHeader.init lf).bytes 14 = (m1, i1) ∧
      m1.take 2 = data.take 2 ∧ i1.pos = min 14 data.length ∧ i1.data = data := by
  by_cases h : 14 ≤ data.length
  · refine ⟨_, _, read_ok ⟨false, data, 0⟩ _ 14 rfl (by simpa using h)
      (fileHeader_length _ rfl rfl), ?_, ?_, rfl⟩
    · simp only [List.drop_zero, List.take_take]
      rfl
    · simp only [Nat.zero_add]; omega
  · refine ⟨data ++ (BitmapFileHeader.init lf).bytes.drop data.length,
      ⟨true, data, data.length⟩, ?_, ?_, ?_, rfl⟩
    · simp [IFStream.read, h]
    · rw [List.take_append_of_le_length h2]
    · simp only []; omega

/-- C9: for every readable file of at least two bytes whose first two bytes are
not B, M, whatever the other bytes are, `LoadBMP` returns the empty image,
which is invalid, and the read position is left at most 14 bytes into the
file: neither the info header nor pixel data was read. -/
theorem C9_signature_rejection (data : List Byte) (lf li : Stack) (h2 : 2 ≤ data.length)
    (hsig : data.take 2 ≠ [66, 77]) :
    ∃ ifs, LoadBMP (some data) lf li = Except.ok (Image.empty, ifs) ∧
      Image.empty.valid = false ∧ ifs.pos = min 14 data.length ∧ ifs.pos ≤ 14 := by
  obtain ⟨m1, i1, hr, ht, hp, -⟩ := read_file_header data lf h2
  refine ⟨i1, LoadBMP_reject data lf li m1 i1 hr ?_, by decide, hp, by omega⟩
  simp only [BitmapFileHeader.ofBytes, ht]
  match data, h2, hsig with
  | a :: b :: t, _, hsig =>
    simp only [List.take_succ_cons, List.take_zero, List.getD_cons_zero, List.getD_cons_succ]
    by_contra hc
    push_neg at hc
    exact hsig (by simp [hc.1, hc.2])

/-- Witness of C9: a file that starts with the characters C, M. -/
theorem C9_signature_rejection_witness :
    ∃ ifs, LoadBMP (some [67, 77, 1, 2, 3, 4, 5, 6, 7, 8, 9, 10, 11, 12, 13, 14, 15, 16])
        dirtyStack dirtyStack = Except.ok (Image.empty, ifs) ∧
      Image.empty.valid = false ∧
      ifs.pos = min 14 [(67 : Byte), 77, 1, 2, 3, 4, 5, 6, 7, 8, 9, 10, 11, 12, 13, 14, 15,
        16].length ∧ ifs.pos ≤ 14 :=
  C9_signature_rejection [67, 77, 1, 2, 3, 4, 5, 6, 7, 8, 9, 10, 11, 12, 13, 14, 15, 16]
    dirtyStack dirtyStack (by decide) (by decide)

/-! ## The 2 x 1 scenario -/

/-- C13 as stated fails: for the 2 x 1 image red, green the stride is not 4,
the file size is not 58 and the bytes at the offsets 54 to 57 are not 0x00,
0xFF, 0x00, 0x00. -/
theorem C13_two_by_one_counterexample :
    ¬ (GetBMPStride twoByOne.width = 4 ∧
      fieldIs (writtenBy (SaveBMP (some 100) cleanStack cleanStack twoByOne)) 2 4 58 ∧
      fieldAt (writtenBy (SaveBMP (some 100) cleanStack cleanStack twoByOne)) 54 4
        = [0x00, 0xFF, 0x00, 0x00]) := by
  decide

/-- C13, amended: encoding the 2 x 1 image red, green to a device with room
for 62 bytes gives the stride 8 and the file size 62, 62 bytes in all, and the
bytes at the offsets 54 to 61 are 0x00, 0x00, 0xFF (the red pixel as b, g, r),
0x00, 0xFF, 0x00 (the green pixel) and two padding bytes 0x00. -/
theorem C13_two_by_one (room : Nat) (sf si : Stack) (hroom : 62 ≤ room) :
    ∃ ofs, SaveBMP (some room) sf si twoByOne = Except.ok (true, ofs) ∧
      GetBMPStride twoByOne.width = 8 ∧ fieldIs ofs.written 2 4 62 ∧
      ofs.written.length = 62 ∧
      fieldAt ofs.written 54 8 = [0x00, 0x00, 0xFF, 0x00, 0xFF, 0x00, 0x00, 0x00] := by
  have hs : GetBMPStride twoByOne.width = 8 := by decide
  obtain ⟨ofs, hsave, -, hwr⟩ := SaveBMP_written room sf si twoByOne (by decide) (by decide)
    (by decide) (by rw [hs]; simp only [twoByOne]; omega)
  have hpix : pixelData twoByOne (GetBMPStride twoByOne.width).toNat twoByOne.width.toNat
      twoByOne.height.toNat = [0x00, 0x00, 0xFF, 0x00, 0xFF, 0x00, 0x00, 0x00] := by decide
  have hf := (savedHeader_fields sf twoByOne.width twoByOne.height
    [0x00, 0x00, 0xFF, 0x00, 0xFF, 0x00, 0x00, 0x00] (by decide) (by decide) (by decide)
    (by decide) (by decide) (by decide)).2.1
  rw [hpix] at hwr
  refine ⟨ofs, hsave, hs, ?_, ?_, ?_⟩
  · rw [hwr]
    have e : (54 : Int) + GetBMPStride twoByOne.width * twoByOne.height = 62 := by decide
    rw [e] at hf
    exact hf
  · rw [hwr, List.length_append, savedHeader_length]
    rfl
  · rw [hwr]
    unfold fieldAt
    rw [List.drop_left' (savedHeader_length _ _ _)]
    rfl

/-- Witness of C13: a device with room for 100 bytes and header storage that
held 0xCC. -/
theorem C13_two_by_one_witness :
    ∃ ofs, SaveBMP (some 100) dirtyStack dirtyStack twoByOne = Except.ok (true, ofs) ∧
      GetBMPStride twoByOne.width = 8 ∧ fieldIs ofs.written 2 4 62 ∧
      ofs.written.length = 62 ∧
      fieldAt ofs.written 54 8 = [0x00, 0x00, 0xFF, 0x00, 0xFF, 0x00, 0x00, 0x00] :=
  C13_two_by_one 100 dirtyStack dirtyStack (by decide)

/-! ## Success reporting of `SaveBMP` -/

theorem saveColumn_length (ln : List Color) (buffer : List Byte) (x : Nat) :
    (saveColumn ln buffer x).length = buffer.length := by
  simp [saveColumn]

theorem saveLine_length (width : Int) (ln : List Color) (buffer : List Byte) :
    (saveLine width ln buffer).length = buffer.length := by
  unfold saveLine
  generalize List.range width.toNat = xs
  induction xs generalizing buffer with
  | nil => rfl
  | cons x xs ih => rw [List.foldl_cons, ih, saveColumn_length]

theorem write_fail_iff (ofs : OFStream) (bs : List Byte) :
    (ofs.write bs).fail = true ↔ ofs.fail = true ∨ ofs.room < bs.length := by
  unfold OFStream.write
  by_cases hf : ofs.fail = true
  · simp [hf]
  · by_cases hr : bs.length ≤ ofs.room
    · simp [hf, hr]
    · simp [hf, hr]; omega

theorem write_room (ofs : OFStream) (bs : List Byte) (h : (ofs.write bs).fail = false) :
    (ofs.write bs).room = ofs.room - bs.length := by
  unfold OFStream.write at h ⊢
  by_cases hf : ofs.fail = true
  · simp [hf] at h
  · by_cases hr : bs.length ≤ ofs.room
    · simp [hf, hr]
    · simp [hf, hr] at h

/-- The stream has failed after the outer loop of `SaveBMP` exactly when it
had failed before or the device had no room for all the rows. -/
theorem saveRows_fail_iff (image : Image) (width : Int) (s n : Nat) (buffer : List Byte)
    (ofs : OFStream) (hb : buffer.length = s) :
    (saveRows image width n buffer ofs).2.fail = true
      ↔ ofs.fail = true ∨ ofs.room < n * s := by
  induction n generalizing buffer ofs with
  | zero => simp [saveRows]
  | succ n ih =>
    have hl : (saveLine width (image.GetLine n) buffer).length = s := by
      rw [saveLine_length, hb]
    have hmul : (n + 1) * s = n * s + s := by ring
    simp only [saveRows]
    rw [ih _ _ hl, hmul]
    have hw := write_fail_iff ofs (saveLine width (image.GetLine n) buffer)
    rw [hl] at hw
    by_cases hf : (ofs.write (saveLine width (image.GetLine n) buffer)).fail = true
    · constructor
      · intro _
        rcases hw.mp hf with h | h
        · exact Or.inl h
        · exact Or.inr (by omega)
      · intro _
        exact Or.inl hf
    · have hf2 : (ofs.write (saveLine width (image.GetLine n) buffer)).fail = false := by
        simpa using hf
      have hroom := write_room ofs _ hf2
      rw [hl] at hroom
      have hn : ¬ (ofs.fail = true ∨ ofs.room < s) := fun h => hf (hw.mpr h)
      push_neg at hn
      constructor
      · rintro (h | h)
        · exact absurd h hf
        · exact Or.inr (by omega)
      · rintro (h | h)
        · exact absurd h hn.1
        · exact Or.inr (by omega)

theorem header_writes (room : Nat) (a b : List Byte) (ha : a.length = 14)
    (hb : b.length = 40) :
    ((((⟨false, [], room⟩ : OFStream).write a).write b).fail = true ↔ room < 54) ∧
      ((((⟨false, [], room⟩ : OFStream).write a).write b).fail = false →
        (((⟨false, [], room⟩ : OFStream).write a).write b).room = room - 54) := by
  have h1 := write_fail_iff ⟨false, [], room⟩ a
  have h2 := write_fail_iff ((⟨false, [], room⟩ : OFStream).write a) b
  rw [ha] at h1
  rw [hb] at h2
  by_cases hf : ((⟨false, [], room⟩ : OFStream).write a).fail = true
  · have h1a := h1.mp hf
    simp only [Bool.false_eq_true, false_or] at h1a
    refine ⟨⟨fun _ => by omega, fun _ => h2.mpr (Or.inl hf)⟩, fun h => ?_⟩
    rw [h2.mpr (Or.inl hf)] at h
    cases h
  · have hf2 : ((⟨false, [], room⟩ : OFStream).write a).fail = false := by simpa using hf
    have hr1 := write_room _ _ hf2
    rw [ha] at hr1
    simp only [] at hr1
    have hn : ¬ room < 14 := fun h => hf (h1.mpr (Or.inr h))
    refine ⟨⟨fun h => ?_, fun h => h2.mpr (Or.inr (by omega))⟩, fun h => ?_⟩
    · rcases h2.mp h with h | h
      · exact absurd h hf
      · omega
    · rw [write_room _ _ h, hb, hr1]
      omega

/-- The whole of `SaveBMP` on a file that could be opened, with positive
dimensions and 3W + 3 in the range of an `int`: it returns true for every room
of the device, and the stream has failed exactly when the device had no room
for the 54 + stride * H bytes. -/
theorem SaveBMP_returns_true (room : Nat) (sf si : Stack) (image : Image)
    (hW : 1 ≤ image.width) (hH : 1 ≤ image.height)
    (hov : 3 * image.width + 3 ≤ 2147483647) :
    ∃ ofs, SaveBMP (some room) sf si image = Except.ok (true, ofs) ∧
      (ofs.fail = true ↔ (room : Int) < 54 + GetBMPStride image.width * image.height) := by
  have hs : 0 ≤ GetBMPStride image.width := by
    have := (stride_facts image.width hW hov).1
    omega
  have hvec : vectorChar (GetBMPStride image.width)
      = Except.ok (List.replicate (GetBMPStride image.width).toNat 0) := by
    simp [vectorChar]; omega
  have hfl : ∀ a b : Nat, (BitmapFileHeader.bytes
      ⟨(BitmapFileHeader.init sf).signature, a, (BitmapFileHeader.init sf).reserved, b⟩).length
      = 14 := fun a b => fileHeader_length _ rfl rfl
  have e := toNat_mul_cast (GetBMPStride image.width) image.height hs (by omega)
  unfold SaveBMP
  simp only [OFStream.open, Image.GetHeight, Image.GetWidth, hvec]
  rw [if_neg (by simp), if_neg (by omega)]
  refine ⟨_, rfl, ?_⟩
  rw [saveRows_fail_iff image image.width (GetBMPStride image.width).toNat image.height.toNat
    _ _ (List.length_replicate _ _)]
  obtain ⟨hw1, hw2⟩ := header_writes room _ _ (hfl _ _) (infoHeader_length _)
  rw [hw1]
  constructor
  · rintro (h | h)
    · omega
    · by_cases hf : room < 54
      · omega
      · rw [hw2 (by
          rcases Bool.eq_false_or_eq_true _ with h' | h'
          · exact absurd (hw1.mp h') hf
          · exact h')] at h
        omega
  · intro h
    by_cases hf : room < 54
    · exact Or.inl hf
    · right
      rw [hw2 (by
        rcases Bool.eq_false_or_eq_true _ with h' | h'
        · exact absurd (hw1.mp h') hf
        · exact h')]
      omega

/-- C12 as stated fails: on a device that accepts only 10 bytes the first
write of `SaveBMP` (the 14 bytes of the file header) fails, the stream is left
failed with 10 bytes in the file, and `SaveBMP` returns true all the same. -/
theorem C12_success_reporting_counterexample :
    SaveBMP (some 10) dirtyStack cleanStack onePixel
      = Except.ok (true, ⟨true, [66, 77, 58, 0, 0, 0, 0xCC, 0xCC, 0xCC, 0xCC], 0⟩) := by
  rfl

/-- C12, amended: `SaveBMP` returns false when the sink cannot be opened; when
the sink was opened, for an image with W >= 1, 3W + 3 in the range of a 32-bit
int, and H >= 1, it returns true whatever the room of the device is, that is,
whether the writes completed or not: the stream has failed exactly when the
device had no room for the 54 + stride * H bytes, and true is returned in both
cases. -/
theorem C12_success_reporting (file : OutPath) (sf si : Stack) (image : Image)
    (hW : 1 ≤ image.width) (hH : 1 ≤ image.height)
    (hov : 3 * image.width + 3 ≤ 2147483647) :
    (file = none → ∃ ofs, SaveBMP file sf si image = Except.ok (false, ofs)) ∧
      (∀ room, file = some room →
        ∃ ofs, SaveBMP file sf si image = Except.ok (true, ofs) ∧
          (ofs.fail = true ↔ (room : Int) < 54 + GetBMPStride image.width * image.height)) := by
  refine ⟨fun h => ?_, fun room h => ?_⟩
  · subst h
    exact ⟨_, rfl⟩
  · subst h
    exact SaveBMP_returns_true room sf si image hW hH hov

/-- Witness of C12: the 2 x 3 image on a device with room for 60 of the 78
bytes. -/
theorem C12_success_reporting_witness :
    ∃ ofs, SaveBMP (some 60) dirtyStack dirtyStack smallImage = Except.ok (true, ofs) ∧
      (ofs.fail = true
        ↔ ((60 : Nat) : Int) < 54 + GetBMPStride smallImage.width * smallImage.height) :=
  (C12_success_reporting (some 60) dirtyStack dirtyStack smallImage (by decide) (by decide)
    (by decide)).2 60 rfl

/-! ## The two parts of `LoadBMP` in general -/

theorem read_length (ifs : IFStream) (mem : List Byte) (n : Nat) (hm : mem.length = n) :
    (ifs.read mem n).1.length = n := by
  unfold IFStream.read
  by_cases hf : ifs.fail = true
  · simp [hf, hm]
  · by_cases hn : n ≤ (List.drop ifs.pos ifs.data).length
    · simp only [hf, hn]
      simp only [Bool.false_eq_true, if_false, if_true, List.length_append, List.length_take,
        List.length_drop]
      rw [List.length_drop] at hn
      omega
    · simp only [hf, hn]
      simp only [Bool.false_eq_true, if_false, List.length_append, List.length_drop]
      rw [List.length_drop] at hn
      omega

theorem loadRows_dims (width : Int) (s n : Nat) (result : Image) (buffer : List Byte)
    (ifs : IFStream) :
    (loadRows width s n result buffer ifs).1.width = result.width ∧
      (loadRows width s n result buffer ifs).1.height = result.height := by
  induction n generalizing result buffer ifs with
  | zero => exact ⟨rfl, rfl⟩
  | succ n ih =>
    simp only [loadRows]
    exact ih _ _ _

/-- The second part of `LoadBMP` when the stride is not negative: the result
of the loop over the rows. -/
theorem loadPixels_of_nonneg (hdr : BitmapInfoHeader) (ifs : IFStream)
    (hs : 0 ≤ GetBMPStride hdr.image_width) :
    loadPixels hdr ifs = Except.ok
      ((loadRows hdr.image_width (GetBMPStride hdr.image_width).toNat hdr.image_height.toNat
          (Image.create hdr.image_width hdr.image_height Color.Black)
          (List.replicate (GetBMPStride hdr.image_width).toNat 0) ifs).1,
       (loadRows hdr.image_width (GetBMPStride hdr.image_width).toNat hdr.image_height.toNat
          (Image.create hdr.image_width hdr.image_height Color.Black)
          (List.replicate (GetBMPStride hdr.image_width).toNat 0) ifs).2.2) := by
  have hvec : vectorChar (GetBMPStride hdr.image_width)
      = Except.ok (List.replicate (GetBMPStride hdr.image_width).toNat 0) := by
    simp [vectorChar]; omega
  unfold loadPixels
  simp only [Image.GetWidth, Image.GetHeight, Image.create, hvec]

/-- The second part of `LoadBMP` when the stride is negative: the constructor
of the row buffer throws. -/
theorem loadPixels_of_neg (hdr : BitmapInfoHeader) (ifs : IFStream)
    (hs : GetBMPStride hdr.image_width < 0) :
    loadPixels hdr ifs = Except.error CppException.length_error := by
  have hvec : vectorChar (GetBMPStride hdr.image_width)
      = Except.error CppException.length_error := by
    simp [vectorChar, hs]
  unfold loadPixels
  simp only [Image.GetWidth, Image.GetHeight, Image.create, hvec]

theorem fieldAt_fieldAt (bs : List Byte) (a n b m : Nat) (h : b + m ≤ n) :
    fieldAt (fieldAt bs a n) b m = fieldAt bs (a + b) m := by
  unfold fieldAt
  rw [List.drop_take, List.take_take, List.drop_drop, Nat.min_eq_left (by omega)]

/-- With a whole header of 54 bytes and the signature B, M the first part of
`LoadBMP` hands the info header of the file and the stream at offset 54 to the
second part, whatever the storage of the header objects held. -/
theorem LoadBMP_full_header (data : List Byte) (lf li : Stack) (hlen : 54 ≤ data.length)
    (hsig : data.take 2 = [66, 77]) :
    LoadBMP (some data) lf li
      = loadPixels (BitmapInfoHeader.ofBytes (fieldAt data 14 40)) ⟨false, data, 54⟩ := by
  have hr1 := read_ok ⟨false, data, 0⟩ (BitmapFileHeader.init lf).bytes 14 rfl
    (by simp only [List.drop_zero]; omega) (fileHeader_length _ rfl rfl)
  simp only [List.drop_zero, Nat.zero_add] at hr1
  have hr2 := read_ok ⟨false, data, 14⟩ (BitmapInfoHeader.init li).bytes 40 rfl
    (by simp only [List.length_drop]; omega) (infoHeader_length _)
  simp only [Nat.reduceAdd] at hr2
  refine LoadBMP_accept data lf li _ _ _ _ hr1 ?_ hr2
  simp only [BitmapFileHeader.ofBytes, List.take_take]
  exact hsig

theorem header_width (data : List Byte) :
    (BitmapInfoHeader.ofBytes (fieldAt data 14 40)).image_width
      = int32OfBytes (fieldAt data 18 4) := by
  have e := fieldAt_fieldAt data 14 40 4 4 (by omega)
  simp only [BitmapInfoHeader.ofBytes]
  exact congrArg int32OfBytes e

theorem header_height (data : List Byte) :
    (BitmapInfoHeader.ofBytes (fieldAt data 14 40)).image_height
      = int32OfBytes (fieldAt data 22 4) := by
  have e := fieldAt_fieldAt data 14 40 8 4 (by omega)
  simp only [BitmapInfoHeader.ofBytes]
  exact congrArg int32OfBytes e

/-- The second part of `LoadBMP` returns an image of the dimensions of the info
header whenever the stride is not negative, whatever the stream holds. -/
theorem loadPixels_dims (hdr : BitmapInfoHeader) (ifs : IFStream)
    (hs : 0 ≤ GetBMPStride hdr.image_width) :
    ∃ out ifs2, loadPixels hdr ifs = Except.ok (out, ifs2) ∧ out.width = hdr.image_width ∧
      out.height = hdr.image_height := by
  refine ⟨_, _, loadPixels_of_nonneg hdr ifs hs, ?_, ?_⟩
  · exact (loadRows_dims _ _ _ _ _ _).1
  · exact (loadRows_dims _ _ _ _ _ _).2

/-! ## Truncated files and a width that is not positive -/

/-- C11 as stated fails: the file of the 2 x 3 image cut after the first of
its three rows starts with B, M, declares the width 2 and the height 3 and is
shorter than 54 + stride * H = 78 bytes, and `LoadBMP` returns a valid 2 x 3
image (the row that was read, three times), not the empty image. -/
theorem C11_truncated_input_counterexample :
    truncatedFile.take 2 = [66, 77] ∧
      int32OfBytes (fieldAt truncatedFile 18 4) = 2 ∧
      int32OfBytes (fieldAt truncatedFile 22 4) = 3 ∧
      (truncatedFile.length : Int) < 54 + GetBMPStride 2 * 3 ∧
      imageOf (LoadBMP (some truncatedFile) dirtyStack dirtyStack)
        = Except.ok ⟨2, 3, [[⟨13, 14, 15⟩, ⟨16, 17, 18⟩], [⟨13, 14, 15⟩, ⟨16, 17, 18⟩],
            [⟨13, 14, 15⟩, ⟨16, 17, 18⟩]]⟩ ∧
      Image.valid ⟨2, 3, [[⟨13, 14, 15⟩, ⟨16, 17, 18⟩], [⟨13, 14, 15⟩, ⟨16, 17, 18⟩],
            [⟨13, 14, 15⟩, ⟨16, 17, 18⟩]]⟩ = true := by
  refine ⟨by decide, by decide, by decide, by decide, by rfl, by decide⟩

/-- C11, amended: for every file of at least 54 bytes that starts with B, M
and whose header declares a width W >= 1, with 3W + 3 in the range of a 32-bit
int, and a height H >= 1, `LoadBMP` returns a valid W x H image whatever the
length of the file is, also when it is less than 54 + stride * H: the reads
are not checked. -/
theorem C11_truncated_input (data : List Byte) (lf li : Stack) (hlen : 54 ≤ data.length)
    (hsig : data.take 2 = [66, 77])
    (hW : 1 ≤ int32OfBytes (fieldAt data 18 4)) (hH : 1 ≤ int32OfBytes (fieldAt data 22 4))
    (hov : 3 * int32OfBytes (fieldAt data 18 4) + 3 ≤ 2147483647) :
    ∃ out ifs, LoadBMP (some data) lf li = Except.ok (out, ifs) ∧
      out.width = int32OfBytes (fieldAt data 18 4) ∧
      out.height = int32OfBytes (fieldAt data 22 4) ∧ out.valid = true := by
  obtain ⟨hs1, -, -⟩ := stride_facts _ hW hov
  rw [LoadBMP_full_header data lf li hlen hsig]
  obtain ⟨out, ifs, hl, hw, hh⟩ := loadPixels_dims (BitmapInfoHeader.ofBytes (fieldAt data 14 40))
    ⟨false, data, 54⟩ (by rw [header_width]; omega)
  rw [header_width] at hw
  rw [header_height] at hh
  refine ⟨out, ifs, hl, hw, hh, ?_⟩
  simp only [Image.valid, hw, hh, decide_eq_true_eq]
  exact ⟨hW, hH⟩

/-- Witness of C11: the file of the 2 x 3 image cut after its first row. -/
theorem C11_truncated_input_witness :
    ∃ out ifs, LoadBMP (some truncatedFile) dirtyStack dirtyStack = Except.ok (out, ifs) ∧
      out.width = int32OfBytes (fieldAt truncatedFile 18 4) ∧
      out.height = int32OfBytes (fieldAt truncatedFile 22 4) ∧ out.valid = true :=
  C11_truncated_input truncatedFile dirtyStack dirtyStack (by decide) (by decide) (by decide)
    (by decide) (by decide)

/-- C14 fails on the code: the file of 54 bytes that starts with B, M and
declares the width -3 and the height 1 is not decoded to the empty image.
`LoadBMP` does not test the dimensions it has read, as `SaveBMP` tests those of
its image before it writes: the stride of the width -3 is -4, the constructor
of the row buffer throws for that count whatever pixel buffer was made before
it, and the exception leaves `LoadBMP`, so that no image is returned. -/
theorem C14_negative_width_throws :
    negativeWidthFile.length = 54 ∧ negativeWidthFile.take 2 = [66, 77] ∧
      int32OfBytes (fieldAt negativeWidthFile 18 4) = -3 ∧
      int32OfBytes (fieldAt negativeWidthFile 22 4) = 1 ∧
      GetBMPStride (-3) = -4 ∧
      vectorChar (GetBMPStride (-3)) = Except.error CppException.length_error ∧
      LoadBMP (some negativeWidthFile) cleanStack cleanStack
        = Except.error CppException.length_error := by
  refine ⟨by decide, by decide, by decide, by decide, by decide, by rfl, by rfl⟩

/-! ## The row buffer -/

/-- C19: for every width W >= 1 with 3W + 3 in the range of a 32-bit int,
3W <= `GetBMPStride W` <= 3W + 3; the row buffer is constructed with that many
octets, keeps that length through the inner loop of `SaveBMP` and through the
reads of `LoadBMP`, and every index x * 3 + c with x < W and c < 3 is below
its length. -/
theorem C19_row_buffer_in_bounds (w : Int) (h1 : 1 ≤ w) (h2 : 3 * w + 3 ≤ 2147483647) :
    3 * w ≤ GetBMPStride w ∧ GetBMPStride w ≤ 3 * w + 3 ∧
      ∃ buffer, vectorChar (GetBMPStride w) = Except.ok buffer ∧
        buffer.length = (GetBMPStride w).toNat ∧
        (∀ x c : Nat, (x : Int) < w → c < 3 → x * 3 + c < buffer.length) ∧
        (∀ (ln : List Color) (b : List Byte), b.length = buffer.length →
          (saveLine w ln b).length = buffer.length ∧
            ∀ x c : Nat, (x : Int) < w → c < 3 → x * 3 + c < (saveLine w ln b).length) ∧
        (∀ (ifs : IFStream) (b : List Byte), b.length = buffer.length →
          (ifs.read b (GetBMPStride w).toNat).1.length = buffer.length ∧
            ∀ x c : Nat, (x : Int) < w → c < 3 →
              x * 3 + c < (ifs.read b (GetBMPStride w).toNat).1.length) := by
  obtain ⟨hs1, hs2, -⟩ := stride_facts w h1 h2
  have hvec : vectorChar (GetBMPStride w)
      = Except.ok (List.replicate (GetBMPStride w).toNat 0) := by
    simp [vectorChar]; omega
  refine ⟨hs1, hs2, _, hvec, List.length_replicate _ _, ?_, ?_, ?_⟩
  · intro x c hx hc
    rw [List.length_replicate]
    omega
  · intro ln b hb
    rw [List.length_replicate] at hb
    rw [saveLine_length, hb, List.length_replicate]
    exact ⟨rfl, fun x c hx hc => by omega⟩
  · intro ifs b hb
    rw [List.length_replicate] at hb
    rw [read_length ifs b _ hb, List.length_replicate]
    exact ⟨rfl, fun x c hx hc => by omega⟩

/-- Witness of C19: the width 5, whose stride is 16. -/
theorem C19_row_buffer_in_bounds_witness :
    3 * 5 ≤ GetBMPStride 5 ∧ GetBMPStride 5 ≤ 3 * 5 + 3 ∧
      ∃ buffer, vectorChar (GetBMPStride 5) = Except.ok buffer ∧
        buffer.length = (GetBMPStride 5).toNat ∧
        (∀ x c : Nat, (x : Int) < 5 → c < 3 → x * 3 + c < buffer.length) ∧
        (∀ (ln : List Color) (b : List Byte), b.length = buffer.length →
          (saveLine 5 ln b).length = buffer.length ∧
            ∀ x c : Nat, (x : Int) < 5 → c < 3 → x * 3 + c < (saveLine 5 ln b).length) ∧
        (∀ (ifs : IFStream) (b : List Byte), b.length = buffer.length →
          (ifs.read b (GetBMPStride 5).toNat).1.length = buffer.length ∧
            ∀ x c : Nat, (x : Int) < 5 → c < 3 →
              x * 3 + c < (ifs.read b (GetBMPStride 5).toNat).1.length) :=
  C19_row_buffer_in_bounds 5 (by decide) (by decide)

/-! ## Files shorter than the signature -/

theorem init_signature (lf : Stack) (pre : List Byte) (k : Nat)
    (hk : pre.length = k) (hk2 : k ≤ 2) (hpre : pre = ([66, 77] : List Byte).take k) :
    (BitmapFileHeader.ofBytes (pre ++ (BitmapFileHeader.init lf).bytes.drop k)).signature
      = [66, 77] := by
  subst hpre
  simp only [BitmapFileHeader.ofBytes, BitmapFileHeader.bytes, BitmapFileHeader.init,
    List.append_assoc]
  interval_cases k <;> rfl

/-- C20: for the empty file and for the file of the one byte B the signature
test of `LoadBMP` does not reject: the function goes on to the info header,
which the failed stream leaves as it was default-initialised, and to the
second part with that header.  For every file of one byte that is not B it
returns the empty image. -/
theorem C20_short_streams (lf li : Stack) :
    LoadBMP (some []) lf li
        = loadPixels (BitmapInfoHeader.ofBytes (BitmapInfoHeader.init li).bytes)
            ⟨true, [], 0⟩ ∧
      LoadBMP (some [66]) lf li
        = loadPixels (BitmapInfoHeader.ofBytes (BitmapInfoHeader.init li).bytes)
            ⟨true, [66], 1⟩ ∧
      ∀ b : Byte, b ≠ 66 →
        LoadBMP (some [b]) lf li = Except.ok (Image.empty, ⟨true, [b], 1⟩) := by
  refine ⟨?_, ?_, ?_⟩
  · refine LoadBMP_accept [] lf li ([] ++ (BitmapFileHeader.init lf).bytes.drop 0)
      _ ⟨true, [], 0⟩ ⟨true, [], 0⟩ ?_ (init_signature lf [] 0 rfl (by omega) rfl) rfl
    simp [IFStream.read]
  · refine LoadBMP_accept [66] lf li ([66] ++ (BitmapFileHeader.init lf).bytes.drop 1)
      _ ⟨true, [66], 1⟩ ⟨true, [66], 1⟩ ?_ (init_signature lf [66] 1 rfl (by omega) rfl) rfl
    simp [IFStream.read]
  · intro b hb
    refine LoadBMP_reject [b] lf li ([b] ++ (BitmapFileHeader.init lf).bytes.drop 1)
      ⟨true, [b], 1⟩ ?_ ?_
    · simp [IFStream.read]
    · left
      simp only [BitmapFileHeader.ofBytes, List.singleton_append, List.take_succ_cons,
        List.getD_cons_zero]
      exact hb

/-- Witness of C20: with info header storage that held a width and a height
of 1, the empty file and the file of the one byte B are decoded to a valid
1 x 1 black image, and the file of the one byte C is rejected. -/
theorem C20_short_streams_witness :
    (imageOf (LoadBMP (some []) cleanStack oneByOneStack) = Except.ok onePixel ∧
      imageOf (LoadBMP (some [66]) cleanStack oneByOneStack) = Except.ok onePixel ∧
      onePixel.valid = true) ∧
      LoadBMP (some [67]) cleanStack oneByOneStack = Except.ok (Image.empty, ⟨true, [67], 1⟩) :=
  ⟨⟨by rw [(C20_short_streams cleanStack oneByOneStack).1]; rfl,
      by rw [(C20_short_streams cleanStack oneByOneStack).2.1]; rfl, by decide⟩,
    (C20_short_streams cleanStack oneByOneStack).2.2 67 (by decide)⟩

/-! ## What the decoder reads -/

theorem getD_take_drop (l : List Byte) (off n k : Nat) (hk : k < n) :
    ((l.drop off).take n).getD k 0 = l.getD (off + k) 0 := by
  simp [List.getD_eq_getElem?_getD, List.getElem?_take, hk, List.getElem?_drop]

theorem loadLine_decode (width : Int) (buffer : List Byte) (ln : List Color)
    (hl : ln.length = width.toNat) :
    loadLine width buffer ln = decodeRow width.toNat buffer := by
  unfold loadLine decodeRow
  rw [loadColumns_eq _ _ _ (by omega), List.drop_of_length_le (by omega), List.append_nil]

/-- The outer loop of `LoadBMP` on a stream that holds all the rows: row `y`
of the result is decoded from the `stride` octets at the offset
`pos + (n - 1 - y) * stride` of the file. -/
theorem loadRows_decode (width : Int) (s n : Nat) (result : Image) (buffer : List Byte)
    (ifs : IFStream) (hb : buffer.length = s) (hf : ifs.fail = false)
    (hlen : ifs.pos + n * s ≤ ifs.data.length)
    (hr : ∀ row ∈ result.rows, row.length = width.toNat)
    (hn : n ≤ result.rows.length) :
    (loadRows width s n result buffer ifs).1
      = ⟨result.width, result.height,
          (List.range n).map (fun y => decodeRow width.toNat
            ((ifs.data.drop (ifs.pos + (n - 1 - y) * s)).take s))
            ++ result.rows.drop n⟩ := by
  induction n generalizing result buffer ifs with
  | zero => simp [loadRows]
  | succ n ih =>
    have hmul : (n + 1) * s = n * s + s := by ring
    have hread := read_ok ifs buffer s hf (by rw [List.length_drop]; omega) hb
    have hline : (result.GetLine n).length = width.toNat := by
      unfold Image.GetLine
      rw [List.getD_eq_getElem _ _ (by omega : n < result.rows.length)]
      exact hr _ (List.getElem_mem _)
    have hload := loadLine_decode width ((ifs.data.drop ifs.pos).take s) (result.GetLine n)
      hline
    have hr2 : ∀ row ∈ (result.SetLine n
        (decodeRow width.toNat ((ifs.data.drop ifs.pos).take s))).rows,
        row.length = width.toNat := by
      intro row hrow
      rcases List.mem_or_eq_of_mem_set hrow with h | h
      · exact hr row h
      · rw [h]; simp [decodeRow]
    have hn2 : n ≤ (result.SetLine n
        (decodeRow width.toNat ((ifs.data.drop ifs.pos).take s))).rows.length := by
      simp only [Image.SetLine, List.length_set]; omega
    have ih1 := ih (result.SetLine n (decodeRow width.toNat ((ifs.data.drop ifs.pos).take s)))
      ((ifs.data.drop ifs.pos).take s) ⟨false, ifs.data, ifs.pos + s⟩
      (by rw [List.length_take, List.length_drop]; omega) rfl (by simp only []; omega) hr2 hn2
    simp only [loadRows, hread, hload]
    rw [ih1]
    simp only [Image.SetLine, drop_set_self _ _ _ (by omega : n < result.rows.length),
      List.range_succ, List.map_append, List.map_cons, List.map_nil, List.append_assoc,
      List.singleton_append, Image.mk.injEq, true_and]
    congr 1
    · apply List.map_congr_left
      intro y hy
      have hy2 : y < n := List.mem_range.mp hy
      have e : ifs.pos + s + (n - 1 - y) * s = ifs.pos + (n + 1 - 1 - y) * s := by
        have e2 : n + 1 - 1 - y = (n - 1 - y) + 1 := by omega
        rw [e2, Nat.add_mul, Nat.one_mul]; omega
      rw [e]
    · have e : ifs.pos + (n + 1 - 1 - n) * s = ifs.pos := by simp
      rw [e]

/-- The second part of `LoadBMP` on a stream that holds all the rows returns
the image that the layout of the file defines. -/
theorem loadPixels_reference (hdr : BitmapInfoHeader) (data : List Byte)
    (hW : 1 ≤ hdr.image_width) (hov : 3 * hdr.image_width + 3 ≤ 2147483647)
    (hlen : 54 + hdr.image_height.toNat * (GetBMPStride hdr.image_width).toNat
      ≤ data.length) :
    ∃ ifs, loadPixels hdr ⟨false, data, 54⟩
      = Except.ok (referenceImage data hdr.image_width hdr.image_height, ifs) := by
  obtain ⟨hs1, hs2, hs3⟩ := stride_facts hdr.image_width hW hov
  rw [loadPixels_of_nonneg hdr _ (by omega)]
  rw [loadRows_decode hdr.image_width _ _ _ _ _ (List.length_replicate _ _) rfl hlen
    (by
      intro row hrow
      simp only [Image.create] at hrow
      rw [List.eq_of_mem_replicate hrow, List.length_replicate])
    (by simp [Image.create])]
  suffices key : (⟨(Image.create hdr.image_width hdr.image_height Color.Black).width,
      (Image.create hdr.image_width hdr.image_height Color.Black).height,
      (List.range hdr.image_height.toNat).map (fun y => decodeRow hdr.image_width.toNat
        ((List.drop (54 + (hdr.image_height.toNat - 1 - y)
          * (GetBMPStride hdr.image_width).toNat) data).take
            (GetBMPStride hdr.image_width).toNat))
        ++ (Image.create hdr.image_width hdr.image_height Color.Black).rows.drop
          hdr.image_height.toNat⟩ : Image)
      = referenceImage data hdr.image_width hdr.image_height by
    rw [key]
    exact ⟨_, rfl⟩
  simp only [Image.create, List.drop_replicate, Nat.sub_self, List.replicate_zero,
    List.append_nil, referenceImage, Image.mk.injEq, true_and]
  apply List.map_congr_left
  intro y _
  unfold decodeRow
  apply List.map_congr_left
  intro x hx
  have hx2 : x < hdr.image_width.toNat := List.mem_range.mp hx
  rw [getD_take_drop _ _ _ _ (by omega), getD_take_drop _ _ _ _ (by omega),
    getD_take_drop _ _ _ _ (by omega)]
  have e0 : ∀ a c : Nat, 54 + a + (x * 3 + c) = 54 + a + 3 * x + c := by
    intro a c; omega
  rw [e0, e0, e0]

/-- Every pixel offset of a file that holds all the rows is inside the file. -/
theorem pixel_offset_lt (data : List Byte) (w h : Int) (x y c : Nat)
    (hW : 1 ≤ w) (hov : 3 * w + 3 ≤ 2147483647)
    (hlen : 54 + GetBMPStride w * h ≤ data.length)
    (hx : (x : Int) < w) (hy : (y : Int) < h) (hc : c < 3) :
    (54 + (h - 1 - y) * GetBMPStride w + 3 * x + c).toNat
        = 54 + (h.toNat - 1 - y) * (GetBMPStride w).toNat + 3 * x + c ∧
      54 + (h.toNat - 1 - y) * (GetBMPStride w).toNat + 3 * x + c < data.length := by
  obtain ⟨hs1, hs2, hs3⟩ := stride_facts w hW hov
  have hA : (((h.toNat - 1 - y) * (GetBMPStride w).toNat : Nat) : Int)
      = (h - 1 - y) * GetBMPStride w := by
    rw [Nat.cast_mul, Int.toNat_of_nonneg (by omega)]
    congr 1
    omega
  have hB : (h.toNat - 1 - y) * (GetBMPStride w).toNat + (GetBMPStride w).toNat
      ≤ h.toNat * (GetBMPStride w).toNat := by
    have : (h.toNat - 1 - y) + 1 ≤ h.toNat := by omega
    calc (h.toNat - 1 - y) * (GetBMPStride w).toNat + (GetBMPStride w).toNat
        = ((h.toNat - 1 - y) + 1) * (GetBMPStride w).toNat := by ring
      _ ≤ h.toNat * (GetBMPStride w).toNat := Nat.mul_le_mul_right _ this
  have hC := toNat_mul_cast (GetBMPStride w) h (by omega) (by omega)
  constructor
  · omega
  · omega

theorem referenceImage_pixel (data : List Byte) (w h : Int) (x y : Nat)
    (hx : x < w.toNat) (hy : y < h.toNat) :
    (referenceImage data w h).pixel y x = Color.mk
      (data.getD (54 + (h.toNat - 1 - y) * (GetBMPStride w).toNat + 3 * x + 2) 0)
      (data.getD (54 + (h.toNat - 1 - y) * (GetBMPStride w).toNat + 3 * x + 1) 0)
      (data.getD (54 + (h.toNat - 1 - y) * (GetBMPStride w).toNat + 3 * x + 0) 0) := by
  simp only [Image.pixel, Image.GetLine, referenceImage, List.getD_eq_getElem?_getD,
    List.getElem?_map, List.getElem?_range hy, Option.map_some', Option.getD_some,
    List.getElem?_range hx]

theorem referenceImage_wellFormed (data : List Byte) (w h : Int) :
    (referenceImage data w h).WellFormed := by
  refine ⟨by simp [referenceImage], ?_⟩
  intro row hrow
  simp only [referenceImage, List.mem_map] at hrow
  obtain ⟨y, -, rfl⟩ := hrow
  simp [referenceImage]

theorem referenceImage_congr (data other : List Byte) (w h : Int)
    (hsame : ∀ x y c : Nat, x < w.toNat → y < h.toNat → c < 3 →
      other.getD (54 + (h.toNat - 1 - y) * (GetBMPStride w).toNat + 3 * x + c) 0
        = data.getD (54 + (h.toNat - 1 - y) * (GetBMPStride w).toNat + 3 * x + c) 0) :
    referenceImage other w h = referenceImage data w h := by
  simp only [referenceImage, Image.mk.injEq, true_and]
  apply List.map_congr_left
  intro y hy
  apply List.map_congr_left
  intro x hx
  have hx2 := List.mem_range.mp hx
  have hy2 := List.mem_range.mp hy
  rw [hsame x y 0 hx2 hy2 (by decide), hsame x y 1 hx2 hy2 (by decide),
    hsame x y 2 hx2 hy2 (by decide)]

theorem getElem?_eq_some_getD (l : List Byte) (k : Nat) (hk : k < l.length) :
    l[k]? = some (l.getD k 0) := by
  rw [List.getD_eq_getElem _ _ hk, List.getElem?_eq_getElem hk]

/-- A file with a whole header and all the rows is decoded to the image that
its layout defines. -/
theorem LoadBMP_reference (data : List Byte) (lf li : Stack)
    (hsig : data.take 2 = [66, 77])
    (hW : 1 ≤ int32OfBytes (fieldAt data 18 4)) (hH : 1 ≤ int32OfBytes (fieldAt data 22 4))
    (hov : 3 * int32OfBytes (fieldAt data 18 4) + 3 ≤ 2147483647)
    (hlen : 54 + GetBMPStride (int32OfBytes (fieldAt data 18 4))
      * int32OfBytes (fieldAt data 22 4) ≤ data.length) :
    ∃ ifs, LoadBMP (some data) lf li = Except.ok (referenceImage data
      (int32OfBytes (fieldAt data 18 4)) (int32OfBytes (fieldAt data 22 4)), ifs) := by
  obtain ⟨hs1, -, -⟩ := stride_facts _ hW hov
  have hC := toNat_mul_cast (GetBMPStride (int32OfBytes (fieldAt data 18 4)))
    (int32OfBytes (fieldAt data 22 4)) (by omega) (by omega)
  have hpos : 0 ≤ GetBMPStride (int32OfBytes (fieldAt data 18 4))
      * int32OfBytes (fieldAt data 22 4) := Int.mul_nonneg (by omega) (by omega)
  rw [LoadBMP_full_header data lf li (by omega) hsig]
  have h := loadPixels_reference (BitmapInfoHeader.ofBytes (fieldAt data 14 40)) data
    (by rw [header_width]; exact hW) (by rw [header_width]; exact hov)
    (by rw [header_width, header_height]; omega)
  rw [header_width, header_height] at h
  exact h

theorem fieldAt_append_left (l1 l2 : List Byte) (off len : Nat)
    (h : off + len ≤ l1.length) :
    fieldAt (l1 ++ l2) off len = fieldAt l1 off len := by
  unfold fieldAt
  rw [List.drop_append_of_le_length (by omega),
    List.take_append_of_le_length (by rw [List.length_drop]; omega)]

/-- C17 as stated fails: the file that starts with B, M, declares the width
715827882 and the height 1 and holds a whole row of 2147483652 bytes after the
header is at least 54 + stride * H bytes long, both for the stride that
`GetBMPStride` computes, which is negative, and for the stride 4 * ceil(3W / 4);
`LoadBMP` leaves by the exception of the row buffer's constructor and no image
is returned. -/
theorem C17_decoder_reference_counterexample :
    wideFullFile.take 2 = [66, 77] ∧
      int32OfBytes (fieldAt wideFullFile 18 4) = 715827882 ∧
      int32OfBytes (fieldAt wideFullFile 22 4) = 1 ∧
      54 + GetBMPStride 715827882 * 1 ≤ (wideFullFile.length : Int) ∧
      54 + 4 * ((3 * 715827882 + 3) / 4) * 1 ≤ (wideFullFile.length : Int) ∧
      LoadBMP (some wideFullFile) cleanStack cleanStack
        = Except.error CppException.length_error := by
  have hl : wideFile.length = 54 := by decide
  have hlen : wideFullFile.length = 54 + 2147483652 := by
    unfold wideFullFile
    rw [List.length_append, hl, List.length_replicate]
  have hsig : wideFullFile.take 2 = [66, 77] := by
    unfold wideFullFile
    rw [List.take_append_of_le_length (by omega)]
    decide
  have hw : int32OfBytes (fieldAt wideFullFile 18 4) = 715827882 := by
    unfold wideFullFile
    rw [fieldAt_append_left _ _ _ _ (by omega)]
    decide
  have hh : int32OfBytes (fieldAt wideFullFile 22 4) = 1 := by
    unfold wideFullFile
    rw [fieldAt_append_left _ _ _ _ (by omega)]
    decide
  have hs : GetBMPStride 715827882 = -2147483644 := by decide
  refine ⟨hsig, hw, hh, ?_, ?_, ?_⟩
  · rw [hlen, hs]; decide
  · rw [hlen]; decide
  · rw [LoadBMP_full_header wideFullFile cleanStack cleanStack (by omega) hsig]
    exact loadPixels_of_neg _ _ (by rw [header_width, hw, hs]; decide)

/-- C17, amended: for every file that starts with B, M, declares a width
W >= 1, with 3W + 3 in the range of a 32-bit int, and a height H >= 1 at the
offsets 18 and 22, and is at least 54 + stride * H bytes long, `LoadBMP` returns
the W x H image whose pixel in row y, column x has its b, g and r from the
offsets 54 + (H - 1 - y) * stride + 3x, + 1 and + 2 of the file; a second such
file of the same width and height that holds the same bytes at these offsets
gives the same image, whatever its padding bytes and the bytes after the rows
are. -/
theorem C17_decoder_reference (data : List Byte) (lf li : Stack)
    (hsig : data.take 2 = [66, 77])
    (hW : 1 ≤ int32OfBytes (fieldAt data 18 4)) (hH : 1 ≤ int32OfBytes (fieldAt data 22 4))
    (hov : 3 * int32OfBytes (fieldAt data 18 4) + 3 ≤ 2147483647)
    (hlen : 54 + GetBMPStride (int32OfBytes (fieldAt data 18 4))
      * int32OfBytes (fieldAt data 22 4) ≤ data.length) :
    ∃ out ifs, LoadBMP (some data) lf li = Except.ok (out, ifs) ∧
      out.width = int32OfBytes (fieldAt data 18 4) ∧
      out.height = int32OfBytes (fieldAt data 22 4) ∧
      out.WellFormed ∧
      (∀ x y : Nat, (x : Int) < int32OfBytes (fieldAt data 18 4) →
        (y : Int) < int32OfBytes (fieldAt data 22 4) →
        data[(54 + (int32OfBytes (fieldAt data 22 4) - 1 - y)
          * GetBMPStride (int32OfBytes (fieldAt data 18 4)) + 3 * x + 0).toNat]?
            = some (out.pixel y x).b ∧
        data[(54 + (int32OfBytes (fieldAt data 22 4) - 1 - y)
          * GetBMPStride (int32OfBytes (fieldAt data 18 4)) + 3 * x + 1).toNat]?
            = some (out.pixel y x).g ∧
        data[(54 + (int32OfBytes (fieldAt data 22 4) - 1 - y)
          * GetBMPStride (int32OfBytes (fieldAt data 18 4)) + 3 * x + 2).toNat]?
            = some (out.pixel y x).r) ∧
      (∀ (other : List Byte) (lf2 li2 : Stack), other.take 2 = [66, 77] →
        fieldAt other 18 4 = fieldAt data 18 4 → fieldAt other 22 4 = fieldAt data 22 4 →
        54 + GetBMPStride (int32OfBytes (fieldAt data 18 4))
          * int32OfBytes (fieldAt data 22 4) ≤ other.length →
        (∀ x y c : Nat, (x : Int) < int32OfBytes (fieldAt data 18 4) →
          (y : Int) < int32OfBytes (fieldAt data 22 4) → c < 3 →
          other[(54 + (int32OfBytes (fieldAt data 22 4) - 1 - y)
            * GetBMPStride (int32OfBytes (fieldAt data 18 4)) + 3 * x + c).toNat]?
            = data[(54 + (int32OfBytes (fieldAt data 22 4) - 1 - y)
              * GetBMPStride (int32OfBytes (fieldAt data 18 4)) + 3 * x + c).toNat]?) →
        imageOf (LoadBMP (some other) lf2 li2) = Except.ok out) := by
  obtain ⟨ifs, hload⟩ := LoadBMP_reference data lf li hsig hW hH hov hlen
  have hpix : ∀ (bs : List Byte), 54 + GetBMPStride (int32OfBytes (fieldAt data 18 4))
      * int32OfBytes (fieldAt data 22 4) ≤ bs.length → ∀ x y c : Nat,
      (x : Int) < int32OfBytes (fieldAt data 18 4) →
      (y : Int) < int32OfBytes (fieldAt data 22 4) → c < 3 →
      bs[(54 + (int32OfBytes (fieldAt data 22 4) - 1 - y)
          * GetBMPStride (int32OfBytes (fieldAt data 18 4)) + 3 * x + c).toNat]?
        = some (bs.getD (54 + ((int32OfBytes (fieldAt data 22 4)).toNat - 1 - y)
          * (GetBMPStride (int32OfBytes (fieldAt data 18 4))).toNat + 3 * x + c) 0) := by
    intro bs hbs x y c hx hy hc
    obtain ⟨e1, e2⟩ := pixel_offset_lt bs _ _ x y c hW hov hbs hx hy hc
    rw [e1]
    exact getElem?_eq_some_getD bs _ e2
  refine ⟨_, ifs, hload, rfl, rfl, referenceImage_wellFormed _ _ _, ?_, ?_⟩
  · intro x y hx hy
    rw [referenceImage_pixel data _ _ x y (by omega) (by omega)]
    exact ⟨hpix data hlen x y 0 hx hy (by decide), hpix data hlen x y 1 hx hy (by decide),
      hpix data hlen x y 2 hx hy (by decide)⟩
  · intro other lf2 li2 hsig2 hw2 hh2 hlen2 hsame
    obtain ⟨ifs2, hload2⟩ := LoadBMP_reference other lf2 li2 hsig2 (by rw [hw2]; exact hW)
      (by rw [hh2]; exact hH) (by rw [hw2]; exact hov) (by rw [hw2, hh2]; exact hlen2)
    rw [hload2, hw2, hh2]
    refine congrArg Except.ok (referenceImage_congr data other _ _ ?_)
    intro x y c hx hy hc
    have hx2 : (x : Int) < int32OfBytes (fieldAt data 18 4) := by omega
    have hy2 : (y : Int) < int32OfBytes (fieldAt data 22 4) := by omega
    have h1 := hpix other hlen2 x y c hx2 hy2 hc
    have h2 := hpix data hlen x y c hx2 hy2 hc
    rw [hsame x y c hx2 hy2 hc, h2] at h1
    exact (Option.some.inj h1).symm

/-- Witness of C17: the file of the 2 x 3 image. -/
theorem C17_decoder_reference_witness :
    ∃ out ifs, LoadBMP (some smallFile) dirtyStack dirtyStack = Except.ok (out, ifs) ∧
      out.width = int32OfBytes (fieldAt smallFile 18 4) ∧
      out.height = int32OfBytes (fieldAt smallFile 22 4) ∧
      out.WellFormed :=
  have h := C17_decoder_reference smallFile dirtyStack dirtyStack (by decide) (by decide)
    (by decide) (by decide) (by decide)
  match h with
  | ⟨out, ifs, h1, h2, h3, h4, _⟩ => ⟨out, ifs, h1, h2, h3, h4⟩

/-! ## What the decoder does not read -/

/-- A read gives the same bytes on two streams in the same state with the same
bytes ahead, and leaves them so. -/
theorem read_congr (a b : IFStream) (mem : List Byte) (n : Nat) (hf : a.fail = b.fail)
    (hd : a.data.drop a.pos = b.data.drop b.pos) :
    (a.read mem n).1 = (b.read mem n).1 ∧ (a.read mem n).2.fail = (b.read mem n).2.fail ∧
      (a.read mem n).2.data.drop (a.read mem n).2.pos
        = (b.read mem n).2.data.drop (b.read mem n).2.pos := by
  unfold IFStream.read
  by_cases ha : a.fail = true
  · have hb : b.fail = true := by rw [← hf]; exact ha
    simp only [ha, hb, if_true]
    exact ⟨trivial, trivial, hd⟩
  · have ha2 : a.fail = false := by simpa using ha
    have hb : b.fail = false := by rw [← hf]; exact ha2
    simp only [ha2, hb, Bool.false_eq_true, if_false, ← hd]
    by_cases hn : n ≤ (List.drop a.pos a.data).length
    · simp only [hn, if_true, true_and]
      rw [← List.drop_drop, ← List.drop_drop, hd]
    · simp only [hn, if_false, true_and]
      rw [← List.drop_drop, ← List.drop_drop, ← hd, List.drop_of_length_le (le_refl _)]

theorem loadRows_congr (width : Int) (s n : Nat) (result : Image) (buffer : List Byte)
    (a b : IFStream) (hf : a.fail = b.fail) (hd : a.data.drop a.pos = b.data.drop b.pos) :
    (loadRows width s n result buffer a).1 = (loadRows width s n result buffer b).1 := by
  induction n generalizing result buffer a b with
  | zero => rfl
  | succ n ih =>
    obtain ⟨h1, h2, h3⟩ := read_congr a b buffer s hf hd
    simp only [loadRows]
    rw [h1]
    exact ih _ _ _ _ h2 h3

/-- The image that the second part of `LoadBMP` returns depends on the info
header through the width and the height only, and on the stream through its
state and the bytes ahead only. -/
theorem loadPixels_congr (hdr1 hdr2 : BitmapInfoHeader) (a b : IFStream)
    (hw : hdr1.image_width = hdr2.image_width) (hh : hdr1.image_height = hdr2.image_height)
    (hf : a.fail = b.fail) (hd : a.data.drop a.pos = b.data.drop b.pos) :
    imageOf (loadPixels hdr1 a) = imageOf (loadPixels hdr2 b) := by
  by_cases hs : 0 ≤ GetBMPStride hdr1.image_width
  · rw [loadPixels_of_nonneg hdr1 a hs, loadPixels_of_nonneg hdr2 b (by rw [← hw]; exact hs),
      ← hw, ← hh]
    simp only [imageOf]
    rw [loadRows_congr _ _ _ _ _ a b hf hd]
  · rw [loadPixels_of_neg hdr1 a (by omega),
      loadPixels_of_neg hdr2 b (by rw [← hw]; omega)]

/-- C18: two files of the same length of at least 54 bytes that both start
with B, M, hold the same bytes at the offsets 18 to 25 (width and height) and
the same bytes from offset 54 on are decoded by `LoadBMP` to the same image,
or both end in the same exception, whatever the other 44 bytes of their
headers are. -/
theorem C18_header_fields_ignored (s1 s2 : List Byte) (lf li lf2 li2 : Stack)
    (hlen : s1.length = s2.length) (h54 : 54 ≤ s1.length)
    (hsig1 : s1.take 2 = [66, 77]) (hsig2 : s2.take 2 = [66, 77])
    (hdims : fieldAt s1 18 8 = fieldAt s2 18 8) (hpix : s1.drop 54 = s2.drop 54) :
    imageOf (LoadBMP (some s1) lf li) = imageOf (LoadBMP (some s2) lf2 li2) := by
  have hw : fieldAt s1 18 4 = fieldAt s2 18 4 := by
    have e1 := fieldAt_fieldAt s1 18 8 0 4 (by omega)
    have e2 := fieldAt_fieldAt s2 18 8 0 4 (by omega)
    rw [← e1, ← e2, hdims]
  have hh : fieldAt s1 22 4 = fieldAt s2 22 4 := by
    have e1 := fieldAt_fieldAt s1 18 8 4 4 (by omega)
    have e2 := fieldAt_fieldAt s2 18 8 4 4 (by omega)
    rw [← e1, ← e2, hdims]
  rw [LoadBMP_full_header s1 lf li h54 hsig1,
    LoadBMP_full_header s2 lf2 li2 (by omega) hsig2]
  exact loadPixels_congr _ _ _ _ (by rw [header_width, header_width, hw])
    (by rw [header_height, header_height, hh]) rfl hpix

/-- Witness of C18: the file of the 2 x 3 image and the same file with file
size, reserved bytes, data offset, header size, planes, bits per pixel,
compression, data size, resolutions and colour counts all set to 0xFF. -/
theorem C18_header_fields_ignored_witness :
    imageOf (LoadBMP (some smallFile) cleanStack cleanStack)
      = imageOf (LoadBMP (some scrambledFile) dirtyStack dirtyStack) :=
  C18_header_fields_ignored smallFile scrambledFile cleanStack cleanStack dirtyStack
    dirtyStack (by decide) (by decide) (by decide) (by decide) (by decide) (by decide)

end img_lib





/-! ## Properties of the converter -/

namespace ImgConverter

open img_lib

theorem GetFormatInterface_eq_none (path : Path) :
    GetFormatInterface path = none ↔ GetFormatByExtension path = Format.UNKNOWN := by
  unfold GetFormatInterface
  cases GetFormatByExtension path <;> simp

/-- C16: `GetFormatByExtension` returns BMP exactly for the extension .bmp,
JPEG exactly for .jpg and .jpeg, PPM exactly for .ppm and UNKNOWN for every
other extension, in particular for the empty extension and for .BMP;
`GetFormatInterface` returns the null handler exactly when the format is
UNKNOWN. -/
theorem C16_format_dispatch (path : Path) :
    (GetFormatByExtension path = Format.BMP ↔ extension path = ".bmp") ∧
    (GetFormatByExtension path = Format.JPEG
      ↔ extension path = ".jpg" ∨ extension path = ".jpeg") ∧
    (GetFormatByExtension path = Format.PPM ↔ extension path = ".ppm") ∧
    (GetFormatByExtension path = Format.UNKNOWN
      ↔ extension path ≠ ".bmp" ∧ extension path ≠ ".jpg" ∧ extension path ≠ ".jpeg"
        ∧ extension path ≠ ".ppm") ∧
    (extension path = "" → GetFormatByExtension path = Format.UNKNOWN) ∧
    (extension path = ".BMP" → GetFormatByExtension path = Format.UNKNOWN) ∧
    (GetFormatInterface path = none ↔ GetFormatByExtension path = Format.UNKNOWN) := by
  have d1 : (".jpg" : String) ≠ ".bmp" := by decide
  have d2 : (".jpeg" : String) ≠ ".bmp" := by decide
  have d3 : (".ppm" : String) ≠ ".bmp" := by decide
  have d4 : (".ppm" : String) ≠ ".jpg" := by decide
  have d5 : (".ppm" : String) ≠ ".jpeg" := by decide
  have d6 : ("" : String) ≠ ".bmp" ∧ ("" : String) ≠ ".jpg" ∧ ("" : String) ≠ ".jpeg"
      ∧ ("" : String) ≠ ".ppm" := by decide
  have d7 : (".BMP" : String) ≠ ".bmp" ∧ (".BMP" : String) ≠ ".jpg"
      ∧ (".BMP" : String) ≠ ".jpeg" ∧ (".BMP" : String) ≠ ".ppm" := by decide
  refine ⟨?_, ?_, ?_, ?_, ?_, ?_, GetFormatInterface_eq_none path⟩
  all_goals unfold GetFormatByExtension
  all_goals generalize extension path = ext
  all_goals simp only []
  · split_ifs <;> simp_all
  · split_ifs <;> simp_all
  · split_ifs with h1 h2 h3 <;>
      first
      | (simp_all; done)
      | (rcases h2 with h | h <;> simp_all)
  · split_ifs with h1 h2 h3 <;>
      first
      | (simp_all; done)
      | (rcases h2 with h | h <;> simp_all)
  · intro h; subst h; simp [d6]
  · intro h; subst h; simp [d7]

/-- Witness of C16: three paths with the extensions .bmp, .BMP and none. -/
theorem C16_format_dispatch_witness :
    GetFormatByExtension "dir.d/photo.bmp" = Format.BMP ∧
      GetFormatByExtension "photo.BMP" = Format.UNKNOWN ∧
      GetFormatByExtension "dir.d/photo" = Format.UNKNOWN ∧
      GetFormatInterface "photo.BMP" = none :=
  ⟨(C16_format_dispatch "dir.d/photo.bmp").1.mpr (by decide),
    (C16_format_dispatch "photo.BMP").2.2.2.2.2.1 (by decide),
    (C16_format_dispatch "dir.d/photo").2.2.2.2.1 (by decide),
    (C16_format_dispatch "photo.BMP").2.2.2.2.2.2.mpr (by decide)⟩

/-- C15 as stated fails: for the arguments `neg.bmp` and `out.bmp`, two paths
with known extensions, the chain of the claim ends in one of the exit codes 4,
5 and 0, but loading `neg.bmp` ends in the exception of the row buffer's
constructor, which leaves `main`: the run has no exit code of its own and
nothing is saved. -/
theorem C15_exit_codes_counterexample :
    GetFormatByExtension "neg.bmp" = Format.BMP ∧
      GetFormatByExtension "out.bmp" = Format.BMP ∧
      (main demoEnv ["conv", "neg.bmp", "out.bmp"]).2
        = Except.error CppException.length_error ∧
      (main demoEnv ["conv", "neg.bmp", "out.bmp"]).1
        = [Event.load ImageFormatInterface.bmp_ "neg.bmp"] := by
  refine ⟨by decide, by decide, by rfl, by rfl⟩

/-- C15, amended: the result of `main`, in this order of precedence: the exit
code 1 when the arguments are not the program name and exactly two paths;
otherwise 2 when the extension of the input path is unknown, whatever the
output path is; otherwise 3 when the extension of the output path is unknown,
and then no image is loaded; otherwise, when loading ends in an exception, that
exception leaves `main` and there is no exit code; otherwise 4 when the loaded
image is invalid; otherwise, when saving ends in an exception, that exception
leaves `main`; otherwise 5 when saving returns false; otherwise 0. -/
theorem C15_exit_codes (env : Env) (argv : List String) :
    (argv.length ≠ 3 → (main env argv).2 = Except.ok 1) ∧
    (∀ prog a b, argv = [prog, a, b] →
      (GetFormatByExtension a = Format.UNKNOWN → (main env argv).2 = Except.ok 2) ∧
      (GetFormatByExtension a ≠ Format.UNKNOWN → GetFormatByExtension b = Format.UNKNOWN →
        (main env argv).2 = Except.ok 3 ∧ ∀ h f, Event.load h f ∉ (main env argv).1) ∧
      (∀ hi ho, GetFormatInterface a = some hi → GetFormatInterface b = some ho →
        (∀ e, hi.LoadImage env a = Except.error e →
          (main env argv).2 = Except.error e ∧ ∀ h f, Event.save h f ∉ (main env argv).1) ∧
        (∀ image, hi.LoadImage env a = Except.ok image →
          (image.valid = false → (main env argv).2 = Except.ok 4) ∧
          (image.valid = true →
            (∀ e, ho.SaveImage env b image = Except.error e →
              (main env argv).2 = Except.error e) ∧
            (∀ saved, ho.SaveImage env b image = Except.ok saved →
              (saved = false → (main env argv).2 = Except.ok 5) ∧
              (saved = true → (main env argv).2 = Except.ok 0)))))) := by
  refine ⟨fun h => ?_, ?_⟩
  · unfold main
    simp only []
    rw [if_pos h]
  · rintro prog a b rfl
    refine ⟨fun h => ?_, fun h1 h2 => ?_, ?_⟩
    · have hn := (GetFormatInterface_eq_none a).mpr h
      simp [main, hn]
    · have hn := (GetFormatInterface_eq_none b).mpr h2
      cases ha : GetFormatInterface a with
      | none => exact absurd ((GetFormatInterface_eq_none a).mp ha) h1
      | some hi => simp [main, ha, hn]
    · intro hi ho ha hb
      refine ⟨fun e hl => ?_, fun image hl => ⟨fun hv => ?_, fun hv => ⟨fun e hs => ?_,
        fun saved hs => ⟨fun h => ?_, fun h => ?_⟩⟩⟩⟩
      · simp [main, ha, hb, hl]
      · simp [main, ha, hb, hl, hv]
      · simp [main, ha, hb, hl, hv, hs]
      · simp [main, ha, hb, hl, hv, hs, h]
      · simp [main, ha, hb, hl, hv, hs, h]

/-- Witness of C15: seven runs in the small world, one for each exit code and
one that ends in the exception of the load. -/
theorem C15_exit_codes_witness :
    (main demoEnv ["conv", "in.bmp"]).2 = Except.ok 1 ∧
    (main demoEnv ["conv", "in.txt", "out.txt"]).2 = Except.ok 2 ∧
    ((main demoEnv ["conv", "in.bmp", "out.txt"]).2 = Except.ok 3 ∧
      ∀ h f, Event.load h f ∉ (main demoEnv ["conv", "in.bmp", "out.txt"]).1) ∧
    ((main demoEnv ["conv", "neg.bmp", "out.bmp"]).2
        = Except.error CppException.length_error ∧
      ∀ h f, Event.save h f ∉ (main demoEnv ["conv", "neg.bmp", "out.bmp"]).1) ∧
    (main demoEnv ["conv", "none.bmp", "out.bmp"]).2 = Except.ok 4 ∧
    (main demoEnv ["conv", "in.bmp", "none.bmp"]).2 = Except.ok 5 ∧
    (main demoEnv ["conv", "in.bmp", "out.bmp"]).2 = Except.ok 0 :=
  ⟨(C15_exit_codes demoEnv ["conv", "in.bmp"]).1 (by decide),
    ((C15_exit_codes demoEnv ["conv", "in.txt", "out.txt"]).2 _ _ _ rfl).1 (by decide),
    ((C15_exit_codes demoEnv ["conv", "in.bmp", "out.txt"]).2 _ _ _ rfl).2.1 (by decide)
      (by decide),
    (((C15_exit_codes demoEnv ["conv", "neg.bmp", "out.bmp"]).2 _ _ _ rfl).2.2
      ImageFormatInterface.bmp_ ImageFormatInterface.bmp_ rfl rfl).1
        CppException.length_error rfl,
    ((((C15_exit_codes demoEnv ["conv", "none.bmp", "out.bmp"]).2 _ _ _ rfl).2.2
      ImageFormatInterface.bmp_ ImageFormatInterface.bmp_ rfl rfl).2 Image.empty rfl).1 rfl,
    ((((((C15_exit_codes demoEnv ["conv", "in.bmp", "none.bmp"]).2 _ _ _ rfl).2.2
      ImageFormatInterface.bmp_ ImageFormatInterface.bmp_ rfl rfl).2 onePixel rfl).2 rfl).2
        false rfl).1 rfl,
    ((((((C15_exit_codes demoEnv ["conv", "in.bmp", "out.bmp"]).2 _ _ _ rfl).2.2
      ImageFormatInterface.bmp_ ImageFormatInterface.bmp_ rfl rfl).2 onePixel rfl).2 rfl).2
        true rfl).2 rfl⟩

end ImgConverter

